import Mathlib

/-!
Verification of the software renderer in `src/rendering/software.rs`.

The rendering pipeline is shallowly embedded: `f32` values are modelled as
exact rationals (the claims under study are about the structure of the
region/caching arithmetic, not about rounding of `f32`), `f32::INFINITY` and
`f32::NEG_INFINITY` fold seeds are modelled by an extended value type `FVal`,
pixel surfaces are modelled symbolically as the trace of the drawing
operations applied to them (the actual rasterization primitives are calls
into the external `tiny-skia` crate and are out of scope), and fallible
constructions (`unwrap` on `Option`) are modelled by `Option`-valued
functions where `none` corresponds to a panic.
-/

/-- Extended value mirroring the `f32` values used by the renderer's span
tracking: finite values plus the two infinities that are used as fold
seeds (`f32::INFINITY`, `f32::NEG_INFINITY`). NaN never arises in the
modelled computations. -/
inductive FVal where
  | negInf
  | fin (q : ℚ)
  | posInf
deriving DecidableEq, Repr

/-- Model of `f32::min` (no NaN operands arise here). -/
def FVal.minv : FVal → FVal → FVal
  | .negInf, _ => .negInf
  | _, .negInf => .negInf
  | .posInf, b => b
  | a, .posInf => a
  | .fin a, .fin b => .fin (min a b)

/-- Model of `f32::max` (no NaN operands arise here). -/
def FVal.maxv : FVal → FVal → FVal
  | .posInf, _ => .posInf
  | _, .posInf => .posInf
  | .negInf, b => b
  | a, .negInf => a
  | .fin a, .fin b => .fin (max a b)

/-- Model of the `<=` comparison on the `f32` values that arise here. -/
def FVal.leb : FVal → FVal → Bool
  | .negInf, _ => true
  | _, .posInf => true
  | .posInf, _ => false
  | .fin a, .fin b => a ≤ b
  | .fin _, .negInf => false

/-- Model of the `<` comparison on the `f32` values that arise here. -/
def FVal.ltb (a b : FVal) : Bool := ! FVal.leb b a

/-- Subtraction of a finite constant, as in `min_y - 1.0`. -/
def FVal.subQ : FVal → ℚ → FVal
  | .fin a, q => .fin (a - q)
  | .negInf, _ => .negInf
  | .posInf, _ => .posInf

/-- Addition of a finite constant, as in `max_y + 2.0`. -/
def FVal.addQ : FVal → ℚ → FVal
  | .fin a, q => .fin (a + q)
  | .negInf, _ => .negInf
  | .posInf, _ => .posInf

/-- Largest value of the target's `usize` (64-bit). -/
def USIZE_MAX : ℕ := 2 ^ 64 - 1

/-- Largest value of `u32`. -/
def U32_MAX : ℕ := 2 ^ 32 - 1

/-- Model of Rust's saturating float-to-`usize` cast `as usize`: truncation
toward zero, negative values and `-inf` saturate to `0`, `+inf` saturates to
`usize::MAX`. -/
def FVal.toUsize : FVal → ℕ
  | .negInf => 0
  | .posInf => USIZE_MAX
  | .fin q => min ⌊q⌋.toNat USIZE_MAX

/-- Model of Rust's saturating float-to-`u32` cast `as u32` for finite
values: truncation toward zero, negative values saturate to `0`. -/
def castU32 (q : ℚ) : ℕ := min ⌊q⌋.toNat U32_MAX

/-- A linear-space RGBA color, the `[f32; 4]` used throughout the scene
model. -/
structure Color4 where
  r : ℚ
  g : ℚ
  b : ℚ
  a : ℚ
deriving DecidableEq, Repr

/-- Modelled from the spec: the renderer's `Transform` (defined outside
`src/`) is a 2D affine map restricted to independent X/Y scale plus X/Y
translation, composable via pre-translate and pre-scale. `convert_transform`
in `src/rendering/software.rs` exhibits exactly the four fields used
here. -/
structure Transform where
  scale_x : ℚ
  scale_y : ℚ
  x : ℚ
  y : ℚ
deriving DecidableEq, Repr

/-- Modelled from the spec: applying the transform to a y coordinate. -/
def Transform.transform_y (t : Transform) (y : ℚ) : ℚ := t.scale_y * y + t.y

/-- Modelled from the spec: pre-translation composes the translation under
the existing scale. -/
def Transform.pre_translate (t : Transform) (dx dy : ℚ) : Transform :=
  ⟨t.scale_x, t.scale_y, t.x + t.scale_x * dx, t.y + t.scale_y * dy⟩

/-- Modelled from the spec: pre-scaling multiplies the scale factors. -/
def Transform.pre_scale (t : Transform) (sx sy : ℚ) : Transform :=
  ⟨t.scale_x * sx, t.scale_y * sy, t.x, t.y⟩

/-- A finished immutable path, represented by its bounding box, which is the
only piece of path data the code under verification inspects
(`path.bounds()`). -/
structure PathRec where
  top : ℚ
  bottom : ℚ
  left : ℚ
  right : ℚ
deriving DecidableEq, Repr

/-- A `SkiaPath` is an `Option`: path construction may fail, yielding
`None` (`PathBuilder::finish` returning `None`). -/
abbrev SkiaPath := Option PathRec

/-- Modelled from the spec: a glyph of a label holds an optional outline
path, a position, a scale factor, and an optional override color. -/
structure Glyph where
  path : Option PathRec
  x : ℚ
  y : ℚ
  scale : ℚ
  color : Option Color4
deriving DecidableEq, Repr

/-- Modelled from the spec: a label resource is a collection of glyphs (the
read/write lock guarding it is a concurrency concern out of scope of the
single-threaded semantics modelled here). -/
structure LabelRes where
  glyphs : List Glyph
deriving DecidableEq, Repr

/-- The backend image resource: a decoded pixmap together with the handle
identity (`image.image.id`) used as part of the blur-cache key. Only the
dimensions and the identity are inspected by the code under
verification. -/
structure ImageRes where
  id : ℕ
  width : ℕ
  height : ℕ
deriving DecidableEq, Repr

/-- The fill shader variants of the scene model. -/
inductive FillShader where
  | solidColor (c : Color4)
  | verticalGradient (top bottom : Color4)
  | horizontalGradient (left right : Color4)
deriving DecidableEq, Repr

/-- The four entity variants of the scene model, as matched by
`render_layer` and `calculate_bounds`. -/
inductive Entity where
  | fillPath (path : SkiaPath) (shader : FillShader) (transform : Transform)
  | strokePath (path : SkiaPath) (strokeWidth : ℚ) (color : Color4) (transform : Transform)
  | image (img : ImageRes) (transform : Transform)
  | label (lab : LabelRes) (shader : FillShader) (textShadow : Option Color4)
      (transform : Transform)
deriving DecidableEq, Repr

/-- Modelled from the spec: the background image descriptor
(`settings::BackgroundImage<I>`, defined outside `src/`) carries the image
together with its brightness, opacity and blur parameters; exactly these
four fields are read by `fill_background` and
`update_blurred_background_image`. -/
structure BackgroundImage (I : Type) where
  image : I
  brightness : ℚ
  opacity : ℚ
  blur : ℚ
deriving DecidableEq, Repr

/-- Modelled from the spec: `BackgroundImage::map` replaces the image field
and keeps the remaining parameters, as used to build the blur-cache key
`image.map(image.image.id)` of type `BackgroundImage<usize>`. -/
def BackgroundImage.map {I J : Type} (b : BackgroundImage I) (x : J) : BackgroundImage J :=
  ⟨x, b.brightness, b.opacity, b.blur⟩

/-- The scene background descriptor: a fill shader or an image with a
transform. -/
inductive BackgroundDesc where
  | shader (s : FillShader)
  | image (img : BackgroundImage ImageRes) (transform : Transform)
deriving DecidableEq, Repr

/-- Symbolic description of the blurred background pixmap produced by the
blur-cache recomputation: source image identity, the dimensions of the
(possibly downscaled) image handed to the blur, the sigma used, and whether
the downscaling branch was taken. The actual pixel contents are produced by
the external `image` crate and are out of scope. -/
structure BlurredPixmap where
  srcId : ℕ
  w : ℕ
  h : ℕ
  sigma : ℚ
  downscaled : Bool
deriving DecidableEq, Repr

/-- The `SHADOW_OFFSET` constant lives in `rendering/consts.rs` outside
`src/`; the development is parameterized by it (written `so` below). The
same holds for `BLUR_FACTOR` (written `bf`). -/
def shadowOffsetIsAParameter : Unit := ()

/-- One step of `calculate_bounds`: fold the vertical extent of a single
entity into the running `(min_y, max_y)` accumulator, exactly as the
`match` inside the `for` loop of `calculate_bounds` does. -/
def boundsStep (so : ℚ) (acc : FVal × FVal) (e : Entity) : FVal × FVal :=
  match e with
  | .fillPath path _ transform =>
    match path with
    | some p =>
      [p.top, p.bottom].foldl
        (fun (a : FVal × FVal) y =>
          let ty := transform.transform_y y
          (a.1.minv (.fin ty), a.2.maxv (.fin ty))) acc
    | none => acc
  | .strokePath path radius _ transform =>
    match path with
    | some p =>
      let r := transform.scale_y * radius
      [p.top, p.bottom].foldl
        (fun (a : FVal × FVal) y =>
          let ty := transform.transform_y y
          (a.1.minv (.fin (ty - r)), a.2.maxv (.fin (ty + r)))) acc
    | none => acc
  | .image _ transform =>
    [(0 : ℚ), 1].foldl
      (fun (a : FVal × FVal) y =>
        let ty := transform.transform_y y
        (a.1.minv (.fin ty), a.2.maxv (.fin ty))) acc
  | .label lab _ textShadow transform =>
    let shadowAcc :=
      if textShadow.isSome then
        let t' := transform.pre_translate so so
        lab.glyphs.foldl
          (fun (a : FVal × FVal) g =>
            match g.path with
            | some p =>
              let t := (t'.pre_translate g.x g.y).pre_scale g.scale g.scale
              [p.top, p.bottom].foldl
                (fun (a : FVal × FVal) y =>
                  let ty := t.transform_y y
                  (a.1.minv (.fin ty), a.2.maxv (.fin ty))) a
            | none => a) acc
      else acc
    lab.glyphs.foldl
      (fun (a : FVal × FVal) g =>
        match g.path with
        | some p =>
          let t := (transform.pre_translate g.x g.y).pre_scale g.scale g.scale
          [p.top, p.bottom].foldl
            (fun (a : FVal × FVal) y =>
              let ty := t.transform_y y
              (a.1.minv (.fin ty), a.2.maxv (.fin ty))) a
        | none => a) shadowAcc

/-- `calculate_bounds` from `src/rendering/software.rs`: the vertical span
`[min_y, max_y]` of a layer, starting from the inverted range
`(+inf, -inf)`. -/
def calculate_bounds (so : ℚ) (layer : List Entity) : FVal × FVal :=
  layer.foldl (boundsStep so) (.posInf, .negInf)

example :
    calculate_bounds 1 [.fillPath (some ⟨10, 20, 0, 5⟩) (.solidColor ⟨1, 0, 0, 1⟩)
      ⟨1, 1, 0, 0⟩] = (.fin 10, .fin 20) := by
  norm_num [calculate_bounds, boundsStep, Transform.transform_y, FVal.minv, FVal.maxv]

example :
    calculate_bounds 1 [.strokePath (some ⟨0, 0, 0, 5⟩) 2 ⟨1, 0, 0, 1⟩
      ⟨1, 1, 0, 0⟩] = (.fin (-2), .fin 2) := by
  norm_num [calculate_bounds, boundsStep, Transform.transform_y, FVal.minv, FVal.maxv]

example : calculate_bounds 1 [] = (.posInf, .negInf) := rfl

/-- The shader handed to a tiny-skia `Paint`. Gradients record the two stop
points and stop colors; a pattern records the source pixmap dimensions and
the pattern opacity; the remaining tiny-skia parameters (spread mode,
filter quality, the reciprocal-scale pattern transform) are fixed at their
single use sites and carried implicitly by the constructor. -/
inductive ShaderDesc where
  | solid (c : Color4)
  | linearGradient (x0 y0 x1 y1 : ℚ) (c0 c1 : Color4)
  | pattern (w h : ℕ) (opacity : ℚ)
deriving DecidableEq, Repr

/-- The tiny-skia blend modes used by the renderer. -/
inductive BlendModeDesc where
  | sourceOver
  | source
  | modulate
deriving DecidableEq, Repr

/-- The fields of a tiny-skia `Paint` that the renderer sets. -/
structure PaintDesc where
  shader : ShaderDesc
  antiAlias : Bool
  blendMode : BlendModeDesc
deriving DecidableEq, Repr

/-- One drawing primitive invoked on a pixel surface. The rasterization
itself happens inside the external `tiny-skia` crate; the model records the
exact call and its arguments. -/
inductive DrawOp where
  | fillPath (p : PathRec) (paint : PaintDesc) (t : Transform)
  | strokePath (p : PathRec) (strokeWidth : ℚ) (paint : PaintDesc) (t : Transform)
  | fillRect (x y w h : ℚ) (paint : PaintDesc)
  | fillAllPixels (c : Color4)
  | clearData
deriving DecidableEq, Repr

/-- A pixel surface, represented symbolically by its provenance: a freshly
allocated blank pixmap, the caller-supplied buffer, a surface with one more
drawing operation applied, or a surface produced by one of the two
compositing copies of `BorrowedRenderer::render` (`copyRows` records the
byte range `[lo, hi)` copied from `src` over `dst`). -/
inductive Surf where
  | blank (w h : ℕ)
  | external (id : ℕ)
  | draw (base : Surf) (op : DrawOp)
  | copyAll (dst src : Surf)
  | copyRows (dst src : Surf) (lo hi : ℕ)
deriving DecidableEq, Repr

/-- Applying a sequence of drawing operations in order. -/
def applyOps (s : Surf) (ops : List DrawOp) : Surf := ops.foldl .draw s

/-- The default paint with anti-aliasing enabled, as built by
`convert_shader` and the stroke/image paints. -/
def paintAA (sh : ShaderDesc) : PaintDesc := ⟨sh, true, .sourceOver⟩

/-- Model of tiny-skia `LinearGradient::new` at the two-stop call sites of
this file: the constructor returns `None` when the two stop points
coincide, and the gradient shader otherwise. (Its remaining failure mode,
a non-finite point distance, cannot arise in the exact-rational model, and
the one-stop and zero-stop shortcuts are never reached because every call
site passes exactly two stops.) -/
def linearGradientNew (x0 y0 x1 y1 : ℚ) (c0 c1 : Color4) : Option ShaderDesc :=
  if x0 = x1 ∧ y0 = y1 then none else some (.linearGradient x0 y0 x1 y1 c0 c1)

/-- `convert_shader` from `src/rendering/software.rs`: build a paint from a
fill shader, computing the gradient stop bounds lazily through the two
callbacks (they are invoked only in the gradient cases). The
`LinearGradient::new(..).unwrap()` in the source panics when the
constructor fails; the panic is modelled by `none`. -/
def convert_shader (shader : FillShader) (calculateTopBottom : Unit → ℚ × ℚ)
    (calculateLeftRight : Unit → ℚ × ℚ) : Option PaintDesc :=
  match shader with
  | .solidColor c => some (paintAA (.solid c))
  | .verticalGradient top bottom =>
    let b := calculateTopBottom ()
    (linearGradientNew 0 b.1 0 b.2 top bottom).map paintAA
  | .horizontalGradient left right =>
    let b := calculateLeftRight ()
    (linearGradientNew b.1 0 b.2 0 left right).map paintAA

/-- The glyph-bounds fold shared by the two label bounds closures in
`render_layer`: accumulate the minimum of `lo` and the maximum of `hi`
over the glyphs that have an outline path. -/
def glyphFoldBounds (lo hi : PathRec → ℚ) (gs : List Glyph) (acc : FVal × FVal) :
    FVal × FVal :=
  gs.foldl
    (fun (a : FVal × FVal) g =>
      match g.path with
      | some p => (a.1.minv (.fin (lo p)), a.2.maxv (.fin (hi p)))
      | none => a) acc

/-- Collapse the folded extended bounds into the pair handed to the
gradient: the degenerate `[0, 0]` when the fold stayed inverted, the
finite bounds otherwise. -/
def collapseBounds (b : FVal × FVal) : ℚ × ℚ :=
  match b.2.ltb b.1, b.1, b.2 with
  | true, _, _ => (0, 0)
  | false, .fin lo, .fin hi => (lo, hi)
  | _, _, _ => (0, 0)

/-- The top/bottom bounds closure passed to `convert_shader` for a label in
`render_layer`: fold the glyph outline bounds starting from the inverted
range, and degrade to `[0, 0]` when no glyph has an outline path. -/
def labelTopBottom (lab : LabelRes) : ℚ × ℚ :=
  collapseBounds (glyphFoldBounds PathRec.top PathRec.bottom lab.glyphs (.posInf, .negInf))

/-- The left/right bounds closure passed to `convert_shader` for a label in
`render_layer`. -/
def labelLeftRight (lab : LabelRes) : ℚ × ℚ :=
  collapseBounds (glyphFoldBounds PathRec.left PathRec.right lab.glyphs (.posInf, .negInf))

/-- The alpha applied to a text shadow, derived from the label's own
shader: the solid alpha, or the average of the two gradient stop alphas. -/
def shadowAlphaOf (shader : FillShader) : ℚ :=
  match shader with
  | .solidColor c => c.a
  | .verticalGradient c1 c2 => (1 / 2) * (c1.a + c2.a)
  | .horizontalGradient c1 c2 => (1 / 2) * (c1.a + c2.a)

/-- Model of tiny-skia `Color::apply_opacity`: multiply the alpha
channel. -/
def Color4.apply_opacity (c : Color4) (o : ℚ) : Color4 := ⟨c.r, c.g, c.b, c.a * o⟩

/-- The per-glyph transform used by both label passes:
`transform.pre_translate(glyph.x, glyph.y).pre_scale(glyph.scale, glyph.scale)`. -/
def glyphTransform (t : Transform) (g : Glyph) : Transform :=
  (t.pre_translate g.x g.y).pre_scale g.scale g.scale

/-- One glyph-painting pass over a label: glyphs without an outline path
are skipped, the rest are filled with the paint selected by `paintOf`. -/
def labelGlyphOps (t : Transform) (paintOf : Glyph → PaintDesc) (lab : LabelRes) :
    List DrawOp :=
  lab.glyphs.filterMap fun g =>
    g.path.map fun p => DrawOp.fillPath p (paintOf g) (glyphTransform t g)

/-- The drawing operations emitted for a single entity by the `match` in
`render_layer`, or `none` when painting the entity panics (the gradient
paint construction failing). A `fillPath`/`strokePath` entity with a
`None` path emits nothing; an image entity fills the cached viewport
`rectangle` with a pattern; a label entity builds its paint first (so a
failing gradient paint panics before any glyph is drawn) and then paints
an optional shadow pass followed by the glyph pass. -/
def render_entity (so : ℚ) (rectangle : PathRec) (e : Entity) :
    Option (List DrawOp) :=
  match e with
  | .fillPath path shader transform =>
    match path with
    | some p =>
      (convert_shader shader (fun _ => (p.top, p.bottom))
        (fun _ => (p.left, p.right))).map
        fun paint => [.fillPath p paint transform]
    | none => some []
  | .strokePath path strokeWidth color transform =>
    match path with
    | some p => some [.strokePath p strokeWidth (paintAA (.solid color)) transform]
    | none => some []
  | .image img transform =>
    some [.fillPath rectangle (paintAA (.pattern img.width img.height 1)) transform]
  | .label lab shader textShadow transform =>
    (convert_shader shader (fun _ => labelTopBottom lab)
      (fun _ => labelLeftRight lab)).map
      fun paint =>
        let shadowOps :=
          match textShadow with
          | some sc =>
            let color := sc.apply_opacity (shadowAlphaOf shader)
            labelGlyphOps (transform.pre_translate so so)
              (fun _ => { paint with shader := .solid color }) lab
          | none => []
        let mainOps := labelGlyphOps transform
          (fun g =>
            match g.color with
            | some c => { paint with shader := .solid c }
            | none => paint) lab
        shadowOps ++ mainOps

/-- `render_layer` from `src/rendering/software.rs`: paint each entity of
the layer onto the canvas in order; a panicking entity aborts the call
(`none`). -/
def render_layer (so : ℚ) (canvas : Surf) (layer : List Entity) (rectangle : PathRec) :
    Option Surf :=
  layer.foldl
    (fun c e => c.bind fun surf => (render_entity so rectangle e).map (applyOps surf))
    (some canvas)

/-- Model of `NormalizedF32::new_clamped`: clamp into `[0, 1]`. -/
def clamp01 (q : ℚ) : ℚ := max 0 (min 1 q)

/-- The fixed reference sigma used when the background image is downscaled
before blurring (`SIGMA_WHEN_SCALED` in `update_blurred_background_image`). -/
def SIGMA_WHEN_SCALED : ℚ := 2

/-- `update_blurred_background_image` from `src/rendering/software.rs`,
parameterized by the `BLUR_FACTOR` constant `bf` (defined outside `src/`).
Returns the new cache contents together with a flag recording whether the
recomputation branch was taken (the branch guarded by the cache-key
comparison). The downscale-and-blur pipeline of the external `image` crate
is recorded symbolically in the resulting `BlurredPixmap`. Division is
exact rational division; the theorems about this function assume the
computed sigma is nonzero, which matches the `f32` behaviour whenever
`bf * blur` is nonzero. The `is_some_and` cache-key test is modelled by
`cacheKeyMatches`. -/
def cacheKeyMatches (key : BackgroundImage ℕ)
    (cache : Option (BackgroundImage ℕ × BlurredPixmap)) : Bool :=
  match cache with
  | some (k, _) => decide (key = k)
  | none => false

/-- `update_blurred_background_image` from `src/rendering/software.rs`;
see the comment on `cacheKeyMatches` above. -/
def update_blurred_background_image (bf : ℚ) (background : Option BackgroundDesc)
    (cache : Option (BackgroundImage ℕ × BlurredPixmap)) :
    Bool × Option (BackgroundImage ℕ × BlurredPixmap) :=
  match background with
  | some (.image img _) =>
    if img.blur ≠ 0 then
      let currentKey := img.map img.image.id
      if cacheKeyMatches currentKey cache then
        (false, cache)
      else
        let dim : ℚ := (max img.image.width img.image.height : ℕ)
        let sigma := bf * img.blur * dim
        let scale := SIGMA_WHEN_SCALED / sigma
        if scale < 1 then
          let w := max (castU32 (scale * (img.image.width : ℚ))) 1
          let h := max (castU32 (scale * (img.image.height : ℚ))) 1
          (true, some (currentKey, ⟨img.image.id, w, h, SIGMA_WHEN_SCALED, true⟩))
        else
          (true, some (currentKey,
            ⟨img.image.id, img.image.width, img.image.height, sigma, false⟩))
    else (false, none)
  | _ => (false, none)

/-- `fill_background` from `src/rendering/software.rs`, applied to the
already-updated blur cache: the list of drawing operations painted into
the cached background surface. Returns `none` when the code would panic:
when the background is a blurred image but the blur cache is empty (the
`unwrap` on `blurred_background_image`), or when a gradient background's
stop points coincide (the `LinearGradient::new` unwraps, reachable only
for degenerate viewport dimensions). -/
def fill_background (background : Option BackgroundDesc)
    (cache : Option (BackgroundImage ℕ × BlurredPixmap)) (width height : ℕ)
    (rectangle : PathRec) : Option (List DrawOp) :=
  match background with
  | none => some [.clearData]
  | some (.shader s) =>
    match s with
    | .solidColor c => some [.fillAllPixels c]
    | .verticalGradient top bottom =>
      (linearGradientNew 0 0 0 (height : ℚ) top bottom).map
        fun sh => [.fillRect 0 0 (width : ℚ) (height : ℚ) ⟨sh, false, .source⟩]
    | .horizontalGradient left right =>
      (linearGradientNew 0 0 (width : ℚ) 0 left right).map
        fun sh => [.fillRect 0 0 (width : ℚ) (height : ℚ) ⟨sh, false, .source⟩]
  | some (.image img transform) =>
    let pixmapDims : Option (ℕ × ℕ) :=
      if img.blur ≠ 0 then
        match cache with
        | some (_, pm) => some (pm.w, pm.h)
        | none => none
      else some (img.image.width, img.image.height)
    match pixmapDims with
    | none => none
    | some pd =>
      let base : List DrawOp :=
        [.fillPath rectangle ⟨.pattern pd.1 pd.2 img.opacity, true, .source⟩ transform]
      some (if img.brightness ≠ 1 then
        base ++ [.fillPath rectangle
          ⟨.solid ⟨clamp01 img.brightness, clamp01 img.brightness,
            clamp01 img.brightness, 1⟩, true, .modulate⟩ transform]
      else base)

/-- Model of `tiny_skia::PixmapMut::from_bytes(image, stride, height)`: it
yields a pixmap exactly when both dimensions are nonzero and the byte
buffer has exactly `4 * stride * height` bytes. Modelled from the spec:
the boundary contract of the external rasterizer crate, per the error
handling design (dimension failures for caller-supplied buffers are
fatal). -/
def pixmapMutFromBytes (bufLen stride height : ℕ) : Option (ℕ × ℕ) :=
  if stride ≠ 0 ∧ height ≠ 0 ∧ bufLen = 4 * stride * height then some (stride, height)
  else none

/-- Model of `tiny_skia::Pixmap::new(w, h)`: succeeds exactly when both
dimensions are nonzero. Modelled from the spec: the boundary contract of
the external rasterizer crate. -/
def pixmapNew (w h : ℕ) : Option (ℕ × ℕ) :=
  if w ≠ 0 ∧ h ≠ 0 then some (w, h) else none

/-- The persistent state of `BorrowedRenderer` that the claims concern: the
blur cache, the cached background surface (its dimensions and symbolic
contents), and the previous frame's vertical span. The allocator and the
scene manager are external collaborators whose per-frame outputs are
supplied as `SceneInput`. -/
structure BorrowedRenderer where
  blurred_background_image : Option (BackgroundImage ℕ × BlurredPixmap)
  bgWidth : ℕ
  bgHeight : ℕ
  bgSurf : Surf
  min_y : FVal
  max_y : FVal
deriving DecidableEq, Repr

/-- `BorrowedRenderer::new`: empty blur cache, a 1x1 background pixmap, and
the inverted empty span. -/
def BorrowedRenderer.new : BorrowedRenderer :=
  ⟨none, 1, 1, .blank 1 1, .posInf, .negInf⟩

/-- The outputs of `SceneManager::update_scene` and the scene accessors
consumed by one `render` call, supplied externally per the scene manager
contract. The viewport `rectangle` is taken to be present, per the
contract that the scene always holds a cached viewport rectangle path
after an update (the code unwraps it). -/
structure SceneInput where
  newResolution : Option (ℚ × ℚ)
  bottomLayerChanged : Bool
  bottomLayer : List Entity
  topLayer : List Entity
  background : Option BackgroundDesc
  rectangle : PathRec
deriving DecidableEq, Repr

/-- The body of `BorrowedRenderer::render` from `src/rendering/software.rs`
after the frame-buffer construction and the background reallocation,
parameterized by the `SHADOW_OFFSET` constant `so` and the `BLUR_FACTOR`
constant `bf`. `fbIn` is the symbolic content of the caller-supplied byte
buffer of length `bufLen`; `bgW`, `bgH` and `bg0` are the dimensions and
contents of the (possibly reallocated) cached background surface. The
result is `none` when the call panics (the blur cache unwrap, an
inverted compositing slice, or a failing gradient paint construction
while painting a layer), and otherwise `some` of the new renderer state,
the final frame buffer contents, and the resize hint returned
verbatim. -/
def render_core (so bf : ℚ) (s : BorrowedRenderer) (scene : SceneInput)
    (bufLen width height stride : ℕ) (forceRedraw : Bool) (fbIn : Surf)
    (bgW bgH : ℕ) (bg0 : Surf) :
    Option (BorrowedRenderer × Surf × Option (ℚ × ℚ)) :=
      let cache' :=
        if scene.bottomLayerChanged then
          (update_blurred_background_image bf scene.background
            s.blurred_background_image).2
        else s.blurred_background_image
      let bgPainted : Option Surf :=
        if scene.bottomLayerChanged then
          (fill_background scene.background cache' width height scene.rectangle).bind
            fun ops => render_layer so (applyOps bg0 ops) scene.bottomLayer
              scene.rectangle
        else some bg0
      bgPainted.bind fun bgSurf1 =>
        let cur := calculate_bounds so scene.topLayer
        let mergedMin := s.min_y.minv cur.1
        let mergedMax := s.max_y.maxv cur.2
        let composited : Option Surf :=
          if forceRedraw || scene.bottomLayerChanged then
            some (.copyAll fbIn bgSurf1)
          else if mergedMin.leb mergedMax then
            let strideBytes := 4 * stride
            let lo := strideBytes * (mergedMin.subQ 1).toUsize
            let hi := strideBytes * min (mergedMax.addQ 2).toUsize height
            if lo ≤ hi ∧ hi ≤ bufLen then some (.copyRows fbIn bgSurf1 lo hi)
            else none
          else some fbIn
        composited.bind fun fbMid =>
          (render_layer so fbMid scene.topLayer scene.rectangle).map fun fbOut =>
            (⟨cache', bgW, bgH, bgSurf1, cur.1, cur.2⟩, fbOut, scene.newResolution)

/-- `BorrowedRenderer::render` proper: construct the frame buffer from the
caller's bytes, reallocate the cached background surface on a dimension
change, and hand over to `render_core`. -/
def BorrowedRenderer.render (so bf : ℚ) (s : BorrowedRenderer) (scene : SceneInput)
    (bufLen width height stride : ℕ) (forceRedraw : Bool) (fbIn : Surf) :
    Option (BorrowedRenderer × Surf × Option (ℚ × ℚ)) :=
  match pixmapMutFromBytes bufLen stride height with
  | none => none
  | some _ =>
    match (if stride ≠ s.bgWidth ∨ height ≠ s.bgHeight then
        (pixmapNew stride height).map fun d => (d.1, d.2, Surf.blank stride height)
      else some (s.bgWidth, s.bgHeight, s.bgSurf)) with
    | none => none
    | some bgAlloc =>
      render_core so bf s scene bufLen width height stride forceRedraw fbIn
        bgAlloc.1 bgAlloc.2.1 bgAlloc.2.2

/-- One decoded RGBA pixel, each channel an 8-bit value. -/
structure PixelRGBA where
  r : ℕ
  g : ℕ
  b : ℕ
  a : ℕ
deriving DecidableEq, Repr

/-- Premultiplication of one color channel in `SkiaAllocator::create_image`:
the channel and the alpha are widened to `u16`, multiplied, divided by 255
and truncated back to `u8`. The `% 65536` mirrors the `u16` arithmetic and
the `% 256` mirrors the `as u8` cast; for 8-bit inputs neither wraps. -/
def premultiplyChannel (c a : ℕ) : ℕ := (c * a % 65536 / 255) % 256

/-- Premultiplication of one pixel: the three color channels are scaled by
the alpha, the alpha itself is left unchanged. The `a == 0xFF` fast path
compiled on non-vectorizing targets skips the computation for opaque
pixels, which produces the same channel values. -/
def premultiplyPixel (p : PixelRGBA) : PixelRGBA :=
  ⟨premultiplyChannel p.r p.a, premultiplyChannel p.g p.a, premultiplyChannel p.b p.a, p.a⟩

/-- The premultiplication pass of `SkiaAllocator::create_image` over the
decoded pixel buffer (the decoding itself is performed by the external
`image` crate). -/
def create_image_premultiply (pixels : List PixelRGBA) : List PixelRGBA :=
  pixels.map premultiplyPixel

/-- Claim C1 as stated: whenever the buffer is valid, the bottom layer is
unchanged and no redraw is forced, the render call completes and the
compositing step copies exactly the byte range of rows
`[U_min - 1, U_max + 2)` of the merged span into the output buffer, with
the upper row clamped to the surface height, and copies nothing when the
merged span is empty. -/
def claimC1Prop : Prop :=
  ∀ (so bf : ℚ) (s : BorrowedRenderer) (scene : SceneInput)
    (bufLen width height stride : ℕ) (fbIn : Surf),
    stride ≠ 0 → height ≠ 0 → bufLen = 4 * stride * height →
    scene.bottomLayerChanged = false →
    let cur := calculate_bounds so scene.topLayer
    let uMin := s.min_y.minv cur.1
    let uMax := s.max_y.maxv cur.2
    (uMin.leb uMax = true →
      ∃ out : BorrowedRenderer × Surf × Option (ℚ × ℚ),
        BorrowedRenderer.render so bf s scene bufLen width height stride false fbIn =
          some out ∧
        render_layer so
          (.copyRows fbIn out.1.bgSurf
            (4 * stride * (uMin.subQ 1).toUsize)
            (4 * stride * min (uMax.addQ 2).toUsize height))
          scene.topLayer scene.rectangle = some out.2.1) ∧
    (uMin.leb uMax = false →
      ∃ out : BorrowedRenderer × Surf × Option (ℚ × ℚ),
        BorrowedRenderer.render so bf s scene bufLen width height stride false fbIn =
          some out ∧
        render_layer so fbIn scene.topLayer scene.rectangle = some out.2.1)

/-- Claim C3 as stated: the bounds contribution of a stroke-path entity
pads the transformed top and bottom edges by `scale_y * width / 2`. -/
def claimC3Prop : Prop :=
  ∀ (so : ℚ) (acc : FVal × FVal) (p : PathRec) (w : ℚ) (c : Color4) (t : Transform),
    boundsStep so acc (.strokePath (some p) w c t) =
      (acc.1.minv (.fin (min (t.transform_y p.top) (t.transform_y p.bottom) -
        t.scale_y * w / 2)),
       acc.2.maxv (.fin (max (t.transform_y p.top) (t.transform_y p.bottom) +
        t.scale_y * w / 2)))

/-- Claim C4 as stated (the universally quantified reuse half): rendering
with the same background image identity and blur amount never takes the
blur recomputation branch, whatever the other background parameters are. -/
def claimC4Prop : Prop :=
  ∀ (bf : ℚ) (img : BackgroundImage ImageRes) (t : Transform)
    (key : BackgroundImage ℕ) (pm : BlurredPixmap),
    img.blur ≠ 0 → key.image = img.image.id → key.blur = img.blur →
    (update_blurred_background_image bf (some (.image img t)) (some (key, pm))).1 = false

/-- Claim C8 as stated (the safety half): a label whose glyphs have no
outline paths uses the degenerate zero-size gradient bounds and painting
it completes without failing. -/
def claimC8Prop : Prop :=
  ∀ (so : ℚ) (rect : PathRec) (lab : LabelRes) (c1 c2 : Color4) (t : Transform),
    lab.glyphs.filterMap Glyph.path = [] →
    labelTopBottom lab = (0, 0) ∧
    ∃ ops, render_entity so rect (.label lab (.verticalGradient c1 c2) none t) =
      some ops

/-- The span state with the persistent dirty span cleared to the inverted
empty range. -/
def resetSpan (s : BorrowedRenderer) : BorrowedRenderer :=
  { s with min_y := .posInf, max_y := .negInf }

/-- Claim C5 as stated (the reset half): on a resize or a forced redraw the
persistent span state is reset to the inverted empty range, so such a call
behaves identically whether or not the previous span is first cleared. -/
def claimC5Prop : Prop :=
  ∀ (so bf : ℚ) (s : BorrowedRenderer) (scene : SceneInput)
    (bufLen width height stride : ℕ) (forceRedraw : Bool) (fbIn : Surf),
    ((stride ≠ s.bgWidth ∨ height ≠ s.bgHeight) ∨ forceRedraw = true) →
    BorrowedRenderer.render so bf s scene bufLen width height stride forceRedraw fbIn =
      BorrowedRenderer.render so bf (resetSpan s) scene bufLen width height stride
        forceRedraw fbIn

/-- The merged dirty-span lower bound of one render call: the minimum of
the stored previous span and the current top-layer span, as produced by the
`mem::replace` dance in `BorrowedRenderer::render`. -/
def mergedSpanMin (so : ℚ) (s : BorrowedRenderer) (scene : SceneInput) : FVal :=
  s.min_y.minv (calculate_bounds so scene.topLayer).1

/-- The merged dirty-span upper bound of one render call. -/
def mergedSpanMax (so : ℚ) (s : BorrowedRenderer) (scene : SceneInput) : FVal :=
  s.max_y.maxv (calculate_bounds so scene.topLayer).2

/-- The lower end of the compositing byte range:
`4 * stride * ((min_y - 1.0) as usize)`. -/
def copyLo (so : ℚ) (s : BorrowedRenderer) (scene : SceneInput) (stride : ℕ) : ℕ :=
  4 * stride * ((mergedSpanMin so s scene).subQ 1).toUsize

/-- The upper end of the compositing byte range:
`4 * stride * (((max_y + 2.0) as usize).min(height))`. -/
def copyHi (so : ℚ) (s : BorrowedRenderer) (scene : SceneInput) (stride height : ℕ) :
    ℕ :=
  4 * stride * min ((mergedSpanMax so s scene).addQ 2).toUsize height

/-- Folding a list of finite values into a running extended minimum. -/
def foldlMinv (xs : List ℚ) (a : FVal) : FVal :=
  xs.foldl (fun v x => v.minv (.fin x)) a

/-- Folding a list of finite values into a running extended maximum. -/
def foldlMaxv (xs : List ℚ) (a : FVal) : FVal :=
  xs.foldl (fun v x => v.maxv (.fin x)) a

theorem FVal.minv_fin_fin (a : FVal) (x y : ℚ) :
    (a.minv (.fin x)).minv (.fin y) = a.minv (.fin (min x y)) := by
  cases a <;> simp [FVal.minv, min_assoc]

theorem FVal.maxv_fin_fin (a : FVal) (x y : ℚ) :
    (a.maxv (.fin x)).maxv (.fin y) = a.maxv (.fin (max x y)) := by
  cases a <;> simp [FVal.maxv, max_assoc]

/-- C3 (amended): for every stroke-path entity with a non-null path, the
dirty-region bounds computation pads the transformed top and bottom edges
of the path's bounding box by an effective on-screen stroke radius equal
to `transform.scale_y * width` (the full stroke width scaled by the
transform's Y scale, twice the claimed half-width radius). -/
theorem strokePath_bounds_pad_full_width (so : ℚ) (acc : FVal × FVal) (p : PathRec)
    (w : ℚ) (c : Color4) (t : Transform) :
    boundsStep so acc (.strokePath (some p) w c t) =
      (acc.1.minv (.fin (min (t.transform_y p.top) (t.transform_y p.bottom) -
        t.scale_y * w)),
       acc.2.maxv (.fin (max (t.transform_y p.top) (t.transform_y p.bottom) +
        t.scale_y * w))) := by
  show ((acc.1.minv _).minv _, (acc.2.maxv _).maxv _) = _
  rw [FVal.minv_fin_fin, FVal.maxv_fin_fin, min_sub_sub_right, max_add_add_right]

/-- C3 counterexample: at a unit transform, a stroke width of 2 and a path
with top and bottom edges at 0, the code pads the span to `[-2, 2]`, not
the `[-1, 1]` that the claimed `scale_y * width / 2` radius would give. -/
theorem strokePath_bounds_claim_false : ¬ claimC3Prop := by
  intro h
  have hc := h 1 (.posInf, .negInf) ⟨0, 0, 0, 5⟩ 2 ⟨1, 0, 0, 1⟩ ⟨1, 1, 0, 0⟩
  norm_num [boundsStep, FVal.minv, FVal.maxv, Transform.transform_y,
    Prod.mk.injEq, FVal.fin.injEq] at hc

/-- C9: a fill-path or stroke-path entity whose path handle is null emits
no drawing operations, so rendering the layer leaves the canvas unchanged
for that entity, with no error surfaced. -/
theorem null_path_entity_skipped (so : ℚ) (canvas : Surf) (rectangle : PathRec)
    (shader : FillShader) (w : ℚ) (c : Color4) (t : Transform) :
    render_layer so canvas [.fillPath none shader t] rectangle = some canvas ∧
    render_layer so canvas [.strokePath none w c t] rectangle = some canvas ∧
    render_entity so rectangle (.fillPath none shader t) = some [] ∧
    render_entity so rectangle (.strokePath none w c t) = some [] :=
  ⟨rfl, rfl, rfl, rfl⟩

/-- C7: image decoding premultiplies each pixel's color channels by its
alpha with exact integer arithmetic: each channel `c` becomes
`floor(c * a / 255)`, and a pixel with alpha 255 keeps its red, green and
blue channels unchanged. -/
theorem create_image_premultiplication (p : PixelRGBA) (hr : p.r < 256)
    (hg : p.g < 256) (hb : p.b < 256) (ha : p.a < 256) :
    create_image_premultiply [p] =
      [⟨p.r * p.a / 255, p.g * p.a / 255, p.b * p.a / 255, p.a⟩] ∧
    (p.a = 255 → create_image_premultiply [p] = [p]) := by
  have key : ∀ c a : ℕ, c < 256 → a < 256 → premultiplyChannel c a = c * a / 255 := by
    intro c a hc ha2
    unfold premultiplyChannel
    have h1 : c * a < 65536 := by nlinarith
    have h2 : c * a / 255 < 256 := by
      rw [Nat.div_lt_iff_lt_mul (by norm_num)]
      nlinarith
    rw [Nat.mod_eq_of_lt h1, Nat.mod_eq_of_lt h2]
  constructor
  · simp [create_image_premultiply, premultiplyPixel, key p.r p.a hr ha,
      key p.g p.a hg ha, key p.b p.a hb ha]
  · intro h255
    obtain ⟨r, g, b, a⟩ := p
    simp only at h255 hr hg hb
    subst h255
    have kr := key r 255 hr (by norm_num)
    have kg := key g 255 hg (by norm_num)
    have kb := key b 255 hb (by norm_num)
    simp only [create_image_premultiply, List.map, premultiplyPixel, kr, kg, kb,
      List.cons.injEq, PixelRGBA.mk.injEq, and_true, List.map_nil]
    omega

/-- Witness for C7 at concrete pixels: a half-transparent pixel has each
channel scaled by its alpha fraction and a fully opaque pixel is
unchanged. -/
theorem create_image_premultiplication_witness :
    create_image_premultiply [⟨100, 200, 50, 128⟩] = [⟨50, 100, 25, 128⟩] ∧
    create_image_premultiply [⟨10, 20, 30, 255⟩] = [⟨10, 20, 30, 255⟩] := by
  constructor
  · have h := (create_image_premultiplication ⟨100, 200, 50, 128⟩ (by norm_num)
      (by norm_num) (by norm_num) (by norm_num)).1
    simpa using h
  · exact (create_image_premultiplication ⟨10, 20, 30, 255⟩ (by norm_num) (by norm_num)
      (by norm_num) (by norm_num)).2 rfl

theorem glyphFoldBounds_split (lo hi : PathRec → ℚ) (gs : List Glyph) (a b : FVal) :
    glyphFoldBounds lo hi gs (a, b) =
      (foldlMinv ((gs.filterMap Glyph.path).map lo) a,
       foldlMaxv ((gs.filterMap Glyph.path).map hi) b) := by
  induction gs generalizing a b with
  | nil => rfl
  | cons g t ih =>
    have hstep : glyphFoldBounds lo hi (g :: t) (a, b) =
        glyphFoldBounds lo hi t
          (match g.path with
           | some p => (a.minv (.fin (lo p)), b.maxv (.fin (hi p)))
           | none => (a, b)) := rfl
    cases hg : g.path with
    | none => rw [hstep, hg, List.filterMap_cons_none hg, ih]
    | some p =>
      rw [hstep, hg, List.filterMap_cons_some hg, ih]
      rfl

theorem foldlMinv_fin (xs : List ℚ) (q : ℚ) :
    foldlMinv xs (.fin q) = .fin (xs.foldl min q) := by
  induction xs generalizing q with
  | nil => rfl
  | cons x t ih => simpa [foldlMinv, FVal.minv] using ih (min q x)

theorem foldlMaxv_fin (xs : List ℚ) (q : ℚ) :
    foldlMaxv xs (.fin q) = .fin (xs.foldl max q) := by
  induction xs generalizing q with
  | nil => rfl
  | cons x t ih => simpa [foldlMaxv, FVal.maxv] using ih (max q x)

theorem foldlMinv_posInf_cons (x : ℚ) (t : List ℚ) :
    foldlMinv (x :: t) .posInf = .fin (t.foldl min x) := by
  have : foldlMinv (x :: t) .posInf = foldlMinv t (.fin x) := rfl
  rw [this, foldlMinv_fin]

theorem foldlMaxv_negInf_cons (x : ℚ) (t : List ℚ) :
    foldlMaxv (x :: t) .negInf = .fin (t.foldl max x) := by
  have : foldlMaxv (x :: t) .negInf = foldlMaxv t (.fin x) := rfl
  rw [this, foldlMaxv_fin]

theorem collapseBounds_fin (m M : ℚ) (h : m ≤ M) :
    collapseBounds (.fin m, .fin M) = (m, M) := by
  simp [collapseBounds, FVal.ltb, FVal.leb, h]

/-- C8 (amended): for a label painted with a gradient shader the gradient
bounds are the union of the outline bounding boxes of the glyphs that have
an outline path (minimum of the tops/lefts, maximum of the
bottoms/rights), and with distinct bounds the gradient paint is built on
exactly those stops; a label in which no glyph has an outline path
degrades to the zero-size bounds `[0, 0]`, whereupon the two gradient stop
points coincide, the gradient constructor fails and the unwrap panics:
painting such a label aborts instead of completing. -/
theorem label_gradient_bounds (so : ℚ) (rect : PathRec) (lab : LabelRes)
    (c1 c2 : Color4) (t : Transform) :
    (lab.glyphs.filterMap Glyph.path = [] →
      labelTopBottom lab = (0, 0) ∧ labelLeftRight lab = (0, 0) ∧
      render_entity so rect (.label lab (.verticalGradient c1 c2) none t) = none) ∧
    (∀ m M, ((lab.glyphs.filterMap Glyph.path).map PathRec.top).min? = some m →
      ((lab.glyphs.filterMap Glyph.path).map PathRec.bottom).max? = some M →
      m ≤ M → labelTopBottom lab = (m, M)) ∧
    (∀ m M, ((lab.glyphs.filterMap Glyph.path).map PathRec.left).min? = some m →
      ((lab.glyphs.filterMap Glyph.path).map PathRec.right).max? = some M →
      m ≤ M → labelLeftRight lab = (m, M)) ∧
    ((labelTopBottom lab).1 ≠ (labelTopBottom lab).2 →
      convert_shader (.verticalGradient c1 c2) (fun _ => labelTopBottom lab)
        (fun _ => labelLeftRight lab) =
      some (paintAA (.linearGradient 0 (labelTopBottom lab).1 0
        (labelTopBottom lab).2 c1 c2))) ∧
    ((labelLeftRight lab).1 ≠ (labelLeftRight lab).2 →
      convert_shader (.horizontalGradient c1 c2) (fun _ => labelTopBottom lab)
        (fun _ => labelLeftRight lab) =
      some (paintAA (.linearGradient (labelLeftRight lab).1 0
        (labelLeftRight lab).2 0 c1 c2))) := by
  refine ⟨?_, ?_, ?_, ?_, ?_⟩
  · intro hnil
    have htb : labelTopBottom lab = (0, 0) := by
      rw [labelTopBottom, glyphFoldBounds_split, hnil]
      rfl
    have hlr : labelLeftRight lab = (0, 0) := by
      rw [labelLeftRight, glyphFoldBounds_split, hnil]
      rfl
    refine ⟨htb, hlr, ?_⟩
    show (convert_shader (.verticalGradient c1 c2) (fun _ => labelTopBottom lab)
      (fun _ => labelLeftRight lab)).map _ = none
    rw [show convert_shader (.verticalGradient c1 c2) (fun _ => labelTopBottom lab)
      (fun _ => labelLeftRight lab) = (linearGradientNew 0 (labelTopBottom lab).1 0
      (labelTopBottom lab).2 c1 c2).map paintAA from rfl, htb, linearGradientNew,
      if_pos ⟨rfl, rfl⟩]
    rfl
  · intro m M hmin hmax hle
    rw [labelTopBottom, glyphFoldBounds_split]
    cases hpaths : lab.glyphs.filterMap Glyph.path with
    | nil => rw [hpaths] at hmin; simp at hmin
    | cons p ps =>
      rw [hpaths] at hmin hmax
      have hm : m = (ps.map PathRec.top).foldl min p.top := by
        have : (p.top :: ps.map PathRec.top).min? =
            some ((ps.map PathRec.top).foldl min p.top) := rfl
        rw [List.map_cons, this] at hmin
        exact (Option.some_inj.mp hmin).symm
      have hM : M = (ps.map PathRec.bottom).foldl max p.bottom := by
        have : (p.bottom :: ps.map PathRec.bottom).max? =
            some ((ps.map PathRec.bottom).foldl max p.bottom) := rfl
        rw [List.map_cons, this] at hmax
        exact (Option.some_inj.mp hmax).symm
      rw [List.map_cons, List.map_cons, foldlMinv_posInf_cons,
        foldlMaxv_negInf_cons, ← hm, ← hM, collapseBounds_fin m M hle]
  · intro m M hmin hmax hle
    rw [labelLeftRight, glyphFoldBounds_split]
    cases hpaths : lab.glyphs.filterMap Glyph.path with
    | nil => rw [hpaths] at hmin; simp at hmin
    | cons p ps =>
      rw [hpaths] at hmin hmax
      have hm : m = (ps.map PathRec.left).foldl min p.left := by
        have : (p.left :: ps.map PathRec.left).min? =
            some ((ps.map PathRec.left).foldl min p.left) := rfl
        rw [List.map_cons, this] at hmin
        exact (Option.some_inj.mp hmin).symm
      have hM : M = (ps.map PathRec.right).foldl max p.right := by
        have : (p.right :: ps.map PathRec.right).max? =
            some ((ps.map PathRec.right).foldl max p.right) := rfl
        rw [List.map_cons, this] at hmax
        exact (Option.some_inj.mp hmax).symm
      rw [List.map_cons, List.map_cons, foldlMinv_posInf_cons,
        foldlMaxv_negInf_cons, ← hm, ← hM, collapseBounds_fin m M hle]
  · intro hne
    show (linearGradientNew 0 (labelTopBottom lab).1 0
      (labelTopBottom lab).2 c1 c2).map paintAA = _
    rw [linearGradientNew, if_neg (fun hc => hne hc.2)]
    rfl
  · intro hne
    show (linearGradientNew (labelLeftRight lab).1 0 (labelLeftRight lab).2 0
      c1 c2).map paintAA = _
    rw [linearGradientNew, if_neg (fun hc => hne hc.1)]
    rfl

/-- C8 counterexample: a label with a single outline-free glyph degrades
to the zero-size bounds `[0, 0]`, the two vertical-gradient stop points
coincide, and painting the label panics on the gradient constructor
unwrap, refuting that painting completes without failing. -/
theorem label_degenerate_gradient_panics : ¬ claimC8Prop := by
  intro h
  obtain ⟨-, ops, hops⟩ := h 0 ⟨0, 1, 0, 1⟩ ⟨[⟨none, 0, 0, 1, none⟩]⟩
    ⟨1, 0, 0, 1⟩ ⟨0, 0, 1, 1⟩ ⟨1, 1, 0, 0⟩ (by simp [List.filterMap])
  rw [show render_entity 0 ⟨0, 1, 0, 1⟩ (.label ⟨[⟨none, 0, 0, 1, none⟩]⟩
    (.verticalGradient ⟨1, 0, 0, 1⟩ ⟨0, 0, 1, 1⟩) none ⟨1, 1, 0, 0⟩) = none
    from rfl] at hops
  cases hops

/-- Witness for C8 (amended): a two-outline label yields the union of the
glyph bounds and a gradient paint on them, while an outline-free label
yields the degenerate zero bounds and a panic when painted. -/
theorem label_gradient_bounds_witness :
    labelTopBottom ⟨[⟨some ⟨1, 5, 0, 2⟩, 0, 0, 1, none⟩, ⟨none, 0, 0, 1, none⟩,
      ⟨some ⟨-1, 3, 1, 4⟩, 0, 0, 1, none⟩]⟩ = (-1, 5) ∧
    convert_shader (.verticalGradient ⟨1, 0, 0, 1⟩ ⟨0, 0, 1, 1⟩)
      (fun _ => labelTopBottom ⟨[⟨some ⟨1, 5, 0, 2⟩, 0, 0, 1, none⟩,
        ⟨none, 0, 0, 1, none⟩, ⟨some ⟨-1, 3, 1, 4⟩, 0, 0, 1, none⟩]⟩)
      (fun _ => labelLeftRight ⟨[⟨some ⟨1, 5, 0, 2⟩, 0, 0, 1, none⟩,
        ⟨none, 0, 0, 1, none⟩, ⟨some ⟨-1, 3, 1, 4⟩, 0, 0, 1, none⟩]⟩) =
      some (paintAA (.linearGradient 0 (-1) 0 5 ⟨1, 0, 0, 1⟩ ⟨0, 0, 1, 1⟩)) ∧
    labelTopBottom ⟨[⟨none, 0, 0, 1, none⟩]⟩ = (0, 0) ∧
    render_entity 0 ⟨0, 1, 0, 1⟩
      (.label ⟨[⟨none, 0, 0, 1, none⟩]⟩
        (.verticalGradient ⟨1, 0, 0, 1⟩ ⟨0, 0, 1, 1⟩) none ⟨1, 1, 0, 0⟩) = none := by
  have htb := (label_gradient_bounds 0 ⟨0, 1, 0, 1⟩ ⟨[⟨some ⟨1, 5, 0, 2⟩, 0, 0, 1,
    none⟩, ⟨none, 0, 0, 1, none⟩, ⟨some ⟨-1, 3, 1, 4⟩, 0, 0, 1, none⟩]⟩
    ⟨1, 0, 0, 1⟩ ⟨0, 0, 1, 1⟩ ⟨1, 1, 0, 0⟩).2.1 (-1) 5
    (by norm_num [List.min?, List.filterMap, min_def])
    (by norm_num [List.max?, List.filterMap, max_def]) (by norm_num)
  refine ⟨htb, ?_, ?_, ?_⟩
  · have hgrad := (label_gradient_bounds 0 ⟨0, 1, 0, 1⟩ ⟨[⟨some ⟨1, 5, 0, 2⟩, 0, 0,
      1, none⟩, ⟨none, 0, 0, 1, none⟩, ⟨some ⟨-1, 3, 1, 4⟩, 0, 0, 1, none⟩]⟩
      ⟨1, 0, 0, 1⟩ ⟨0, 0, 1, 1⟩ ⟨1, 1, 0, 0⟩).2.2.2.1 (by rw [htb]; norm_num)
    rw [htb] at hgrad
    exact hgrad
  · exact ((label_gradient_bounds 0 ⟨0, 1, 0, 1⟩ ⟨[⟨none, 0, 0, 1, none⟩]⟩
      ⟨1, 0, 0, 1⟩ ⟨0, 0, 1, 1⟩ ⟨1, 1, 0, 0⟩).1 (by simp [List.filterMap])).1
  · exact ((label_gradient_bounds 0 ⟨0, 1, 0, 1⟩ ⟨[⟨none, 0, 0, 1, none⟩]⟩
      ⟨1, 0, 0, 1⟩ ⟨0, 0, 1, 1⟩ ⟨1, 1, 0, 0⟩).1 (by simp [List.filterMap])).2.2

/-- C4 (amended): the blur cache recomputes exactly when the background is
an image with non-zero blur whose full cache key — the background image
record with the image replaced by its identity, hence identity,
brightness, opacity and blur — differs from the stored key; with a
matching full key the cache is reused unchanged, the cache is cleared
whenever the background is not an image with non-zero blur, and the
background transform never influences the cache. -/
theorem blur_cache_recompute_characterization (bf : ℚ) (bg : Option BackgroundDesc)
    (cache : Option (BackgroundImage ℕ × BlurredPixmap)) :
    ((update_blurred_background_image bf bg cache).1 = true ↔
      ∃ img t, bg = some (.image img t) ∧ img.blur ≠ 0 ∧
        ∀ pm, cache ≠ some (img.map img.image.id, pm)) ∧
    (∀ img t pm, bg = some (.image img t) → img.blur ≠ 0 →
      cache = some (img.map img.image.id, pm) →
      (update_blurred_background_image bf bg cache).2 = cache ∧
      (update_blurred_background_image bf bg cache).1 = false) ∧
    (∀ img t, bg = some (.image img t) → img.blur = 0 →
      (update_blurred_background_image bf bg cache).2 = none) ∧
    (∀ sdr, bg = some (.shader sdr) →
      (update_blurred_background_image bf bg cache).2 = none) ∧
    (bg = none → (update_blurred_background_image bf bg cache).2 = none) ∧
    (∀ img t1 t2,
      update_blurred_background_image bf (some (.image img t1)) cache =
        update_blurred_background_image bf (some (.image img t2)) cache) := by
  refine ⟨?_, ?_, ?_, ?_, ?_, fun img t1 t2 => rfl⟩
  · cases bg with
    | none => simp [update_blurred_background_image]
    | some b =>
      cases b with
      | shader sdr => simp [update_blurred_background_image]
      | image img t =>
        by_cases hblur : img.blur = 0
        · simp [update_blurred_background_image, hblur]
        · cases cache with
          | none =>
            simp only [update_blurred_background_image, cacheKeyMatches,
              if_pos hblur, Bool.false_eq_true, if_false]
            constructor
            · rintro -
              exact ⟨img, t, rfl, hblur, fun pm h => by exact absurd h (by simp)⟩
            · rintro -
              split <;> rfl
          | some kp =>
            obtain ⟨key, pm⟩ := kp
            by_cases hkey : img.map img.image.id = key
            · have hcond : decide (img.map img.image.id = key) = true :=
                decide_eq_true hkey
              simp only [update_blurred_background_image, cacheKeyMatches,
                if_pos hblur, hcond, if_true]
              constructor
              · rintro ⟨⟩
              · rintro ⟨img', t', heq, hblur', hall⟩
                obtain ⟨rfl, rfl⟩ : img' = img ∧ t' = t := by
                  injection heq with h1
                  injection h1 with h2 h3
                  exact ⟨h2.symm, h3.symm⟩
                exact absurd (by rw [hkey] : some (key, pm) =
                  some (img'.map img'.image.id, pm)) (hall pm)
            · simp only [update_blurred_background_image, cacheKeyMatches,
                if_pos hblur, decide_eq_true_eq, if_neg hkey]
              constructor
              · rintro -
                refine ⟨img, t, rfl, hblur, fun pm' h => ?_⟩
                injection h with h1
                injection h1 with h2 h3
                exact hkey h2.symm
              · rintro -
                split <;> rfl
  · rintro img t pm rfl hblur rfl
    simp [update_blurred_background_image, cacheKeyMatches, if_pos hblur]
  · rintro img t rfl hblur
    simp [update_blurred_background_image, hblur]
  · rintro sdr rfl
    simp [update_blurred_background_image]
  · rintro rfl
    simp [update_blurred_background_image]

/-- C4 counterexample: a cached entry whose key has the same image identity
7 and the same blur 1/2 as the incoming background image, but brightness
1/2 instead of 1, causes the recomputation branch to be taken, refuting
that re-rendering with an unchanged (identity, blur) pair never recomputes
regardless of the other background parameters. -/
theorem blur_cache_brightness_triggers_recompute : ¬ claimC4Prop := by
  intro h
  have hkeyne : (⟨7, 1, 1, 1 / 2⟩ : BackgroundImage ℕ) ≠ ⟨7, 1 / 2, 1, 1 / 2⟩ := by
    intro heq
    injection heq with h1 h2 h3 h4
    norm_num at h2
  have hc := h 1 ⟨⟨7, 4, 2⟩, 1, 1, 1 / 2⟩ ⟨1, 1, 0, 0⟩ ⟨7, 1 / 2, 1, 1 / 2⟩
    ⟨7, 4, 2, 2, false⟩ (by norm_num) rfl rfl
  norm_num [update_blurred_background_image, cacheKeyMatches, BackgroundImage.map,
    SIGMA_WHEN_SCALED, BackgroundImage.mk.injEq] at hc

/-- Witness for C4 (amended) at concrete inputs: a fully matching key
reuses the cache without recomputation, and a non-image background clears
the cache. -/
theorem blur_cache_recompute_characterization_witness :
    (update_blurred_background_image 1
      (some (.image ⟨⟨7, 4, 2⟩, 1, 1, 1 / 2⟩ ⟨1, 1, 0, 0⟩))
      (some (⟨7, 1, 1, 1 / 2⟩, ⟨7, 4, 2, 2, false⟩))).1 = false ∧
    (update_blurred_background_image 1 none
      (some (⟨7, 1, 1, 1 / 2⟩, ⟨7, 4, 2, 2, false⟩))).2 = none := by
  constructor
  · exact ((blur_cache_recompute_characterization 1 _ _).2.1 ⟨⟨7, 4, 2⟩, 1, 1, 1 / 2⟩
      ⟨1, 1, 0, 0⟩ ⟨7, 4, 2, 2, false⟩ rfl (by norm_num) rfl).2
  · exact (blur_cache_recompute_characterization 1 _ _).2.2.2.2.1 rfl

/-- C6: when the blurred background image is recomputed, the target sigma
is `BLUR_FACTOR * blur * max(width, height)` of the source image; if
`2.0 / sigma < 1.0` the source is first downscaled by that factor to
`floor(scale * dim)` pixels per axis, clamped below at one pixel, and
blurred with sigma `2.0`; otherwise the original image is blurred with the
full target sigma without scaling. -/
theorem blur_recompute_sigma_and_scale (bf : ℚ) (img : BackgroundImage ImageRes)
    (t : Transform) (cache : Option (BackgroundImage ℕ × BlurredPixmap))
    (hblur : img.blur ≠ 0)
    (hmiss : ∀ pm, cache ≠ some (img.map img.image.id, pm))
    (hw : img.image.width ≤ U32_MAX) (hh : img.image.height ≤ U32_MAX) :
    (2 / (bf * img.blur * (max img.image.width img.image.height : ℕ) : ℚ) < 1 →
      (update_blurred_background_image bf (some (.image img t)) cache).2 =
        some (img.map img.image.id,
          ⟨img.image.id,
           max (⌊(2 / (bf * img.blur * (max img.image.width img.image.height : ℕ) : ℚ)) *
             (img.image.width : ℚ)⌋.toNat) 1,
           max (⌊(2 / (bf * img.blur * (max img.image.width img.image.height : ℕ) : ℚ)) *
             (img.image.height : ℚ)⌋.toNat) 1,
           2, true⟩)) ∧
    (¬ 2 / (bf * img.blur * (max img.image.width img.image.height : ℕ) : ℚ) < 1 →
      (update_blurred_background_image bf (some (.image img t)) cache).2 =
        some (img.map img.image.id,
          ⟨img.image.id, img.image.width, img.image.height,
           bf * img.blur * (max img.image.width img.image.height : ℕ), false⟩)) := by
  have hcond : cacheKeyMatches (img.map img.image.id) cache = false := by
    rcases hc : cache with _ | ⟨k, pm⟩
    · rfl
    · simp only [cacheKeyMatches, decide_eq_false_iff_not]
      intro heq
      exact hmiss pm (by rw [hc, heq])
  have key : ∀ n : ℕ, n ≤ U32_MAX →
      2 / (bf * img.blur * (max img.image.width img.image.height : ℕ) : ℚ) < 1 →
      castU32 ((2 / (bf * img.blur * (max img.image.width img.image.height : ℕ) : ℚ)) * n) =
        ⌊(2 / (bf * img.blur * (max img.image.width img.image.height : ℕ) : ℚ)) *
          (n : ℚ)⌋.toNat := by
    intro n hn hs
    have h1 : (2 / (bf * img.blur * (max img.image.width img.image.height : ℕ) : ℚ)) *
        (n : ℚ) ≤ (n : ℚ) := mul_le_of_le_one_left (by positivity) hs.le
    have h2 : ⌊(2 / (bf * img.blur * (max img.image.width img.image.height : ℕ) : ℚ)) *
        (n : ℚ)⌋ ≤ (n : ℤ) := by
      calc ⌊(2 / (bf * img.blur * (max img.image.width img.image.height : ℕ) : ℚ)) *
          (n : ℚ)⌋ ≤ ⌊(n : ℚ)⌋ := Int.floor_le_floor h1
        _ = (n : ℤ) := Int.floor_natCast n
    have h3 : ⌊(2 / (bf * img.blur * (max img.image.width img.image.height : ℕ) : ℚ)) *
        (n : ℚ)⌋.toNat ≤ n := by omega
    unfold castU32
    exact min_eq_left (h3.trans hn)
  constructor
  · intro hs
    simp only [update_blurred_background_image, if_pos hblur, hcond, Bool.false_eq_true,
      if_false, SIGMA_WHEN_SCALED, if_pos hs, key img.image.width hw hs,
      key img.image.height hh hs]
  · intro hs
    simp only [update_blurred_background_image, if_pos hblur, hcond, Bool.false_eq_true,
      if_false, SIGMA_WHEN_SCALED, if_neg hs]

/-- Witness for C6: with blur factor `1/20`, a blur of 1 on a 100x50 image
gives sigma 5 and scale `2/5 < 1`, downscaling to 40x20 and blurring at
sigma 2; a blur of `1/100` gives sigma `1/4` and scale `8 >= 1`, blurring
the original 100x50 image at the full sigma. -/
theorem blur_recompute_sigma_and_scale_witness :
    (update_blurred_background_image (1 / 20)
      (some (.image ⟨⟨3, 100, 50⟩, 1, 1, 1⟩ ⟨1, 1, 0, 0⟩)) none).2 =
      some (⟨3, 1, 1, 1⟩, ⟨3, 40, 20, 2, true⟩) ∧
    (update_blurred_background_image (1 / 20)
      (some (.image ⟨⟨3, 100, 50⟩, 1, 1, 1 / 100⟩ ⟨1, 1, 0, 0⟩)) none).2 =
      some (⟨3, 1, 1, 1 / 100⟩, ⟨3, 100, 50, 1 / 20, false⟩) := by
  constructor
  · have h := (blur_recompute_sigma_and_scale (1 / 20) ⟨⟨3, 100, 50⟩, 1, 1, 1⟩
      ⟨1, 1, 0, 0⟩ none (by norm_num) (fun pm => by simp) (by norm_num [U32_MAX])
      (by norm_num [U32_MAX])).1 (by norm_num)
    rw [h]
    norm_num [BackgroundImage.map]
    omega
  · have h := (blur_recompute_sigma_and_scale (1 / 20) ⟨⟨3, 100, 50⟩, 1, 1, 1 / 100⟩
      ⟨1, 1, 0, 0⟩ none (by norm_num) (fun pm => by simp) (by norm_num [U32_MAX])
      (by norm_num [U32_MAX])).2 (by norm_num)
    rw [h]
    norm_num [BackgroundImage.map]

theorem render_no_resize (so bf : ℚ) (s : BorrowedRenderer) (scene : SceneInput)
    (bufLen width height stride : ℕ) (force : Bool) (fbIn : Surf)
    (hfb : pixmapMutFromBytes bufLen stride height = some (stride, height))
    (hsw : stride = s.bgWidth) (hsh : height = s.bgHeight) :
    BorrowedRenderer.render so bf s scene bufLen width height stride force fbIn =
      render_core so bf s scene bufLen width height stride force fbIn
        s.bgWidth s.bgHeight s.bgSurf := by
  unfold BorrowedRenderer.render
  rw [hfb, if_neg (by simp [hsw, hsh])]

theorem render_resize (so bf : ℚ) (s : BorrowedRenderer) (scene : SceneInput)
    (bufLen width height stride : ℕ) (force : Bool) (fbIn : Surf)
    (hfb : pixmapMutFromBytes bufLen stride height = some (stride, height))
    (hs : stride ≠ 0) (hh : height ≠ 0)
    (hres : stride ≠ s.bgWidth ∨ height ≠ s.bgHeight) :
    BorrowedRenderer.render so bf s scene bufLen width height stride force fbIn =
      render_core so bf s scene bufLen width height stride force fbIn
        stride height (.blank stride height) := by
  unfold BorrowedRenderer.render
  rw [hfb, if_pos hres, pixmapNew, if_pos ⟨hs, hh⟩]
  rfl

theorem render_eq_some_inv (so bf : ℚ) (s : BorrowedRenderer) (scene : SceneInput)
    (bufLen width height stride : ℕ) (force : Bool) (fbIn : Surf)
    (out : BorrowedRenderer × Surf × Option (ℚ × ℚ))
    (heq : BorrowedRenderer.render so bf s scene bufLen width height stride force fbIn =
      some out) :
    render_core so bf s scene bufLen width height stride force fbIn
      (if stride ≠ s.bgWidth ∨ height ≠ s.bgHeight then stride else s.bgWidth)
      (if stride ≠ s.bgWidth ∨ height ≠ s.bgHeight then height else s.bgHeight)
      (if stride ≠ s.bgWidth ∨ height ≠ s.bgHeight then Surf.blank stride height
        else s.bgSurf) = some out := by
  unfold BorrowedRenderer.render at heq
  rcases hfb : pixmapMutFromBytes bufLen stride height with _ | d
  · rw [hfb] at heq
    exact absurd heq (by simp)
  · rw [hfb] at heq
    by_cases hres : stride ≠ s.bgWidth ∨ height ≠ s.bgHeight
    · rw [if_pos hres] at heq
      rw [if_pos hres, if_pos hres, if_pos hres]
      rcases hpn : pixmapNew stride height with _ | e
      · rw [hpn] at heq
        exact absurd heq (by simp)
      · rw [hpn] at heq
        have he : e = (stride, height) := by
          unfold pixmapNew at hpn
          by_cases hc : stride ≠ 0 ∧ height ≠ 0
          · rw [if_pos hc] at hpn
            exact (Option.some_inj.mp hpn).symm
          · rw [if_neg hc] at hpn
            exact absurd hpn (by simp)
        rw [he] at heq
        exact heq
    · rw [if_neg hres] at heq
      rw [if_neg hres, if_neg hres, if_neg hres]
      exact heq

theorem render_core_unchanged (so bf : ℚ) (s : BorrowedRenderer) (scene : SceneInput)
    (bufLen width height stride : ℕ) (force : Bool) (fbIn : Surf) (bgW bgH : ℕ)
    (bg0 : Surf) (hchg : scene.bottomLayerChanged = false) :
    render_core so bf s scene bufLen width height stride force fbIn bgW bgH bg0 =
      (if force then some (Surf.copyAll fbIn bg0)
       else if (s.min_y.minv (calculate_bounds so scene.topLayer).1).leb
           (s.max_y.maxv (calculate_bounds so scene.topLayer).2) then
         if 4 * stride *
              ((s.min_y.minv (calculate_bounds so scene.topLayer).1).subQ 1).toUsize ≤
              4 * stride *
              min ((s.max_y.maxv (calculate_bounds so scene.topLayer).2).addQ 2).toUsize
                height ∧
              4 * stride *
              min ((s.max_y.maxv (calculate_bounds so scene.topLayer).2).addQ 2).toUsize
                height ≤ bufLen then
           some (Surf.copyRows fbIn bg0
             (4 * stride *
               ((s.min_y.minv (calculate_bounds so scene.topLayer).1).subQ 1).toUsize)
             (4 * stride *
               min ((s.max_y.maxv (calculate_bounds so scene.topLayer).2).addQ 2).toUsize
                 height))
         else none
       else some fbIn).bind
        fun fbMid =>
          (render_layer so fbMid scene.topLayer scene.rectangle).map fun fbOut =>
            (⟨s.blurred_background_image, bgW, bgH, bg0,
              (calculate_bounds so scene.topLayer).1,
              (calculate_bounds so scene.topLayer).2⟩,
             fbOut, scene.newResolution) := by
  simp only [render_core, hchg, Bool.false_eq_true, if_false, Bool.or_false,
    Option.some_bind]

theorem render_core_changed (so bf : ℚ) (s : BorrowedRenderer) (scene : SceneInput)
    (bufLen width height stride : ℕ) (force : Bool) (fbIn : Surf) (bgW bgH : ℕ)
    (bg0 : Surf) (hchg : scene.bottomLayerChanged = true) :
    render_core so bf s scene bufLen width height stride force fbIn bgW bgH bg0 =
      (fill_background scene.background
        (update_blurred_background_image bf scene.background
          s.blurred_background_image).2 width height scene.rectangle).bind
        fun ops =>
          (render_layer so (applyOps bg0 ops) scene.bottomLayer
            scene.rectangle).bind fun bgSurf1 =>
            (render_layer so (.copyAll fbIn bgSurf1) scene.topLayer
              scene.rectangle).map fun fbOut =>
              (⟨(update_blurred_background_image bf scene.background
                  s.blurred_background_image).2, bgW, bgH, bgSurf1,
                (calculate_bounds so scene.topLayer).1,
                (calculate_bounds so scene.topLayer).2⟩,
               fbOut, scene.newResolution) := by
  rcases hf : fill_background scene.background
      (update_blurred_background_image bf scene.background
        s.blurred_background_image).2 width height scene.rectangle with _ | ops
  · simp [render_core, hchg, hf]
  · rcases hb : render_layer so (applyOps bg0 ops) scene.bottomLayer
        scene.rectangle with _ | bgSurf1
    · simp [render_core, hchg, hf, hb]
    · simp [render_core, hchg, hf, hb]

/-- C10: `BorrowedRenderer::render` panics when the supplied byte buffer's
length is not exactly `4 * stride * height` or when the stride or the
height is zero; under that precondition both the frame-buffer construction
and the reallocated background surface construction succeed. -/
theorem render_buffer_preconditions (so bf : ℚ) (s : BorrowedRenderer)
    (scene : SceneInput) (bufLen width height stride : ℕ) (force : Bool) (fbIn : Surf) :
    (¬ (stride ≠ 0 ∧ height ≠ 0 ∧ bufLen = 4 * stride * height) →
      BorrowedRenderer.render so bf s scene bufLen width height stride force fbIn =
        none) ∧
    ((stride ≠ 0 ∧ height ≠ 0 ∧ bufLen = 4 * stride * height) →
      pixmapMutFromBytes bufLen stride height = some (stride, height) ∧
      pixmapNew stride height = some (stride, height)) := by
  constructor
  · intro hpre
    unfold BorrowedRenderer.render
    rw [pixmapMutFromBytes, if_neg hpre]
  · intro hpre
    exact ⟨by rw [pixmapMutFromBytes, if_pos hpre],
      by rw [pixmapNew, if_pos ⟨hpre.1, hpre.2.1⟩]⟩

/-- Witness for C10: a zero stride makes the render call fail, and a valid
1x1 buffer of 4 bytes makes both constructions succeed. -/
theorem render_buffer_preconditions_witness :
    BorrowedRenderer.render 0 0 BorrowedRenderer.new
      ⟨none, false, [], [], none, ⟨0, 1, 0, 1⟩⟩ 7 1 1 0 false (.external 0) = none ∧
    pixmapMutFromBytes 4 1 1 = some (1, 1) ∧ pixmapNew 1 1 = some (1, 1) := by
  refine ⟨?_, ?_⟩
  · exact (render_buffer_preconditions 0 0 BorrowedRenderer.new
      ⟨none, false, [], [], none, ⟨0, 1, 0, 1⟩⟩ 7 1 1 0 false (.external 0)).1
      (by norm_num)
  · exact (render_buffer_preconditions 0 0 BorrowedRenderer.new
      ⟨none, false, [], [], none, ⟨0, 1, 0, 1⟩⟩ 4 1 1 1 false (.external 0)).2
      ⟨one_ne_zero, one_ne_zero, by norm_num⟩

/-- C2: when the bottom layer did not change and the cached background
surface's dimensions match the supplied stride and height, a completed
render call leaves the cached background surface untouched and paints the
top layer only onto the caller-supplied output buffer (after an optional
compositing copy); whenever the bottom layer did change, the background
surface is repainted — background fill followed by the bottom layer —
before being composited into the output buffer. -/
theorem background_surface_isolation (so bf : ℚ) (s : BorrowedRenderer)
    (scene : SceneInput) (bufLen width height stride : ℕ) (force : Bool)
    (fbIn : Surf) :
    (scene.bottomLayerChanged = false → stride = s.bgWidth → height = s.bgHeight →
      ∀ s' fb hint,
        BorrowedRenderer.render so bf s scene bufLen width height stride force fbIn =
          some (s', fb, hint) →
        s'.bgSurf = s.bgSurf ∧
        ∃ fbMid, (fbMid = Surf.copyAll fbIn s.bgSurf ∨ fbMid = fbIn ∨
            ∃ lo hi, fbMid = Surf.copyRows fbIn s.bgSurf lo hi) ∧
          render_layer so fbMid scene.topLayer scene.rectangle = some fb) ∧
    (scene.bottomLayerChanged = true →
      ∀ s' fb hint,
        BorrowedRenderer.render so bf s scene bufLen width height stride force fbIn =
          some (s', fb, hint) →
        ∃ ops, fill_background scene.background s'.blurred_background_image width
            height scene.rectangle = some ops ∧
          render_layer so
            (applyOps (if stride ≠ s.bgWidth ∨ height ≠ s.bgHeight then
              Surf.blank stride height else s.bgSurf) ops) scene.bottomLayer
            scene.rectangle = some s'.bgSurf ∧
          render_layer so (Surf.copyAll fbIn s'.bgSurf) scene.topLayer
            scene.rectangle = some fb) := by
  constructor
  · intro hchg hsw hsh s' fb hint heq
    have hcore := render_eq_some_inv so bf s scene bufLen width height stride force
      fbIn (s', fb, hint) heq
    have hcond : ¬ (stride ≠ s.bgWidth ∨ height ≠ s.bgHeight) := by simp [hsw, hsh]
    rw [if_neg hcond, if_neg hcond, if_neg hcond,
      render_core_unchanged so bf s scene bufLen width height stride force fbIn
        s.bgWidth s.bgHeight s.bgSurf hchg] at hcore
    obtain ⟨fbMid, hcompos, hrest⟩ := Option.bind_eq_some.mp hcore
    obtain ⟨fbOut, hrl, hmk⟩ := Option.map_eq_some'.mp hrest
    have hs' : s' = ⟨s.blurred_background_image, s.bgWidth, s.bgHeight, s.bgSurf,
        (calculate_bounds so scene.topLayer).1,
        (calculate_bounds so scene.topLayer).2⟩ :=
      (congrArg (fun p => p.1) hmk).symm
    have hfbeq : fbOut = fb := congrArg (fun p => p.2.1) hmk
    rw [hfbeq] at hrl
    refine ⟨by rw [hs'], fbMid, ?_, hrl⟩
    split_ifs at hcompos with h1 h2 h3
    all_goals first
      | exact Or.inl (Option.some_inj.mp hcompos).symm
      | exact Or.inr (Or.inr ⟨_, _, (Option.some_inj.mp hcompos).symm⟩)
      | exact Or.inr (Or.inl (Option.some_inj.mp hcompos).symm)
  · intro hchg s' fb hint heq
    have hcore := render_eq_some_inv so bf s scene bufLen width height stride force
      fbIn (s', fb, hint) heq
    rw [render_core_changed so bf s scene bufLen width height stride force fbIn _ _ _
      hchg] at hcore
    obtain ⟨ops, hfill, h2⟩ := Option.bind_eq_some.mp hcore
    obtain ⟨bgSurf1, hbot, h3⟩ := Option.bind_eq_some.mp h2
    obtain ⟨fbOut, htop, hmk⟩ := Option.map_eq_some'.mp h3
    have hs' : s' = ⟨(update_blurred_background_image bf scene.background
        s.blurred_background_image).2,
        (if stride ≠ s.bgWidth ∨ height ≠ s.bgHeight then stride else s.bgWidth),
        (if stride ≠ s.bgWidth ∨ height ≠ s.bgHeight then height else s.bgHeight),
        bgSurf1,
        (calculate_bounds so scene.topLayer).1,
        (calculate_bounds so scene.topLayer).2⟩ :=
      (congrArg (fun p => p.1) hmk).symm
    have hfbeq : fbOut = fb := congrArg (fun p => p.2.1) hmk
    rw [hfbeq] at htop
    refine ⟨ops, ?_, ?_, ?_⟩
    · rw [hs']
      exact hfill
    · rw [hs']
      exact hbot
    · rw [hs']
      exact htop

/-- Witness for C2 at a 1x1 surface: with an unchanged bottom layer the
cached background surface is kept as is, and with a changed bottom layer it
is repainted and then composited in full. -/
theorem background_surface_isolation_witness :
    (∃ out : BorrowedRenderer × Surf × Option (ℚ × ℚ),
      BorrowedRenderer.render 0 0 BorrowedRenderer.new
        ⟨none, false, [], [], none, ⟨0, 1, 0, 1⟩⟩ 4 1 1 1 false (.external 0) =
        some out ∧ out.1.bgSurf = BorrowedRenderer.new.bgSurf) ∧
    (∃ out : BorrowedRenderer × Surf × Option (ℚ × ℚ), ∃ ops : List DrawOp,
      BorrowedRenderer.render 0 0 BorrowedRenderer.new
        ⟨none, true, [], [], none, ⟨0, 1, 0, 1⟩⟩ 4 1 1 1 false (.external 0) =
        some out ∧
      fill_background none out.1.blurred_background_image 1 1 ⟨0, 1, 0, 1⟩ =
        some ops ∧
      out.2.1 = render_layer 0 (Surf.copyAll (.external 0) out.1.bgSurf) []
        ⟨0, 1, 0, 1⟩) := by
  have hfb : pixmapMutFromBytes 4 1 1 = some (1, 1) := by
    rw [pixmapMutFromBytes, if_pos ⟨one_ne_zero, one_ne_zero, by norm_num⟩]
  constructor
  · have h1 := render_no_resize 0 0 BorrowedRenderer.new
      ⟨none, false, [], [], none, ⟨0, 1, 0, 1⟩⟩ 4 1 1 1 false (.external 0) hfb rfl rfl
    have h2 := render_core_unchanged 0 0 BorrowedRenderer.new
      ⟨none, false, [], [], none, ⟨0, 1, 0, 1⟩⟩ 4 1 1 1 false (.external 0)
      BorrowedRenderer.new.bgWidth BorrowedRenderer.new.bgHeight
      BorrowedRenderer.new.bgSurf rfl
    have hrender : BorrowedRenderer.render 0 0 BorrowedRenderer.new
        ⟨none, false, [], [], none, ⟨0, 1, 0, 1⟩⟩ 4 1 1 1 false (.external 0) =
        some (⟨none, BorrowedRenderer.new.bgWidth, BorrowedRenderer.new.bgHeight,
          BorrowedRenderer.new.bgSurf, .posInf, .negInf⟩, .external 0, none) := by
      rw [h1, h2]
      rfl
    refine ⟨_, hrender, ?_⟩
    exact ((background_surface_isolation 0 0 BorrowedRenderer.new
      ⟨none, false, [], [], none, ⟨0, 1, 0, 1⟩⟩ 4 1 1 1 false (.external 0)).1
      rfl rfl rfl _ _ _ hrender).1
  · have h1 := render_no_resize 0 0 BorrowedRenderer.new
      ⟨none, true, [], [], none, ⟨0, 1, 0, 1⟩⟩ 4 1 1 1 false (.external 0) hfb rfl rfl
    have h2 := render_core_changed 0 0 BorrowedRenderer.new
      ⟨none, true, [], [], none, ⟨0, 1, 0, 1⟩⟩ 4 1 1 1 false (.external 0)
      BorrowedRenderer.new.bgWidth BorrowedRenderer.new.bgHeight
      BorrowedRenderer.new.bgSurf rfl
    have hrender : BorrowedRenderer.render 0 0 BorrowedRenderer.new
        ⟨none, true, [], [], none, ⟨0, 1, 0, 1⟩⟩ 4 1 1 1 false (.external 0) =
        some (⟨none, BorrowedRenderer.new.bgWidth, BorrowedRenderer.new.bgHeight,
          .draw (.blank 1 1) .clearData, .posInf, .negInf⟩,
          .copyAll (.external 0) (.draw (.blank 1 1) .clearData), none) := by
      rw [h1, h2]
      rfl
    obtain ⟨ops, hfill, hbg, hfb2⟩ := ((background_surface_isolation 0 0
      BorrowedRenderer.new ⟨none, true, [], [], none, ⟨0, 1, 0, 1⟩⟩ 4 1 1 1 false
      (.external 0)).2 rfl _ _ _ hrender)
    exact ⟨_, ops, hrender, hfill, hfb2⟩

/-- C1 (amended): with a valid buffer, no forced redraw and an unchanged
bottom layer, if the merged span — the union (min of mins, max of maxes) of
the current frame's top-layer span and the stored previous span — is
non-empty and the resulting byte range is well-ordered, the compositing
step copies from the cached background surface exactly the byte range
`[4 * stride * ((U_min - 1) as usize), 4 * stride * min((U_max + 2) as usize, height))`,
the byte range of rows `[U_min - 1, U_max + 2)` with the upper row clamped
to the surface height; if the merged span is non-empty but lies so far
below the surface that the range inverts, the call panics instead of
copying; and if the merged span is empty, no bytes are copied. -/
theorem render_partial_copy_exact_range (so bf : ℚ) (s : BorrowedRenderer)
    (scene : SceneInput) (bufLen width height stride : ℕ) (fbIn : Surf)
    (hs : stride ≠ 0) (hh : height ≠ 0) (hlen : bufLen = 4 * stride * height)
    (hchg : scene.bottomLayerChanged = false) :
    ((mergedSpanMin so s scene).leb (mergedSpanMax so s scene) = true →
      copyLo so s scene stride ≤ copyHi so s scene stride height →
      BorrowedRenderer.render so bf s scene bufLen width height stride false fbIn =
        (render_layer so
            (Surf.copyRows fbIn
              (if stride ≠ s.bgWidth ∨ height ≠ s.bgHeight then Surf.blank stride height
                else s.bgSurf)
              (copyLo so s scene stride) (copyHi so s scene stride height))
            scene.topLayer scene.rectangle).map fun fbOut =>
          (⟨s.blurred_background_image, stride, height,
            (if stride ≠ s.bgWidth ∨ height ≠ s.bgHeight then Surf.blank stride height
              else s.bgSurf),
            (calculate_bounds so scene.topLayer).1,
            (calculate_bounds so scene.topLayer).2⟩,
          fbOut, scene.newResolution)) ∧
    ((mergedSpanMin so s scene).leb (mergedSpanMax so s scene) = true →
      ¬ copyLo so s scene stride ≤ copyHi so s scene stride height →
      BorrowedRenderer.render so bf s scene bufLen width height stride false fbIn =
        none) ∧
    ((mergedSpanMin so s scene).leb (mergedSpanMax so s scene) = false →
      BorrowedRenderer.render so bf s scene bufLen width height stride false fbIn =
        (render_layer so fbIn scene.topLayer scene.rectangle).map fun fbOut =>
          (⟨s.blurred_background_image, stride, height,
            (if stride ≠ s.bgWidth ∨ height ≠ s.bgHeight then Surf.blank stride height
              else s.bgSurf),
            (calculate_bounds so scene.topLayer).1,
            (calculate_bounds so scene.topLayer).2⟩,
          fbOut, scene.newResolution)) := by
  have hfb : pixmapMutFromBytes bufLen stride height = some (stride, height) := by
    rw [pixmapMutFromBytes, if_pos ⟨hs, hh, hlen⟩]
  have hhi : copyHi so s scene stride height ≤ bufLen := by
    rw [hlen, copyHi]
    exact Nat.mul_le_mul_left _ (min_le_right _ _)
  have hshowMin : (s.min_y.minv (calculate_bounds so scene.topLayer).1) =
      mergedSpanMin so s scene := rfl
  have hshowMax : (s.max_y.maxv (calculate_bounds so scene.topLayer).2) =
      mergedSpanMax so s scene := rfl
  have hshowLo : (4 * stride * ((mergedSpanMin so s scene).subQ 1).toUsize) =
      copyLo so s scene stride := rfl
  have hshowHi : (4 * stride * min ((mergedSpanMax so s scene).addQ 2).toUsize height) =
      copyHi so s scene stride height := rfl
  by_cases hres : stride ≠ s.bgWidth ∨ height ≠ s.bgHeight
  · have hrw := render_resize so bf s scene bufLen width height stride false fbIn hfb
      hs hh hres
    have hcore := render_core_unchanged so bf s scene bufLen width height stride false
      fbIn stride height (.blank stride height) hchg
    rw [if_pos hres]
    refine ⟨fun hleb hlohi => ?_, fun hleb hlohi => ?_, fun hleb => ?_⟩
    · rw [hrw, hcore, hshowMin, hshowMax, hshowLo, hshowHi, if_neg (by simp),
        if_pos hleb, if_pos ⟨hlohi, hhi⟩]
      rfl
    · rw [hrw, hcore, hshowMin, hshowMax, hshowLo, hshowHi, if_neg (by simp),
        if_pos hleb, if_neg (fun hc => hlohi hc.1)]
      rfl
    · rw [hrw, hcore, hshowMin, hshowMax, if_neg (by simp),
        if_neg (by rw [hleb]; exact Bool.false_ne_true)]
      rfl
  · push_neg at hres
    obtain ⟨hsw, hsh⟩ := hres
    have hrw := render_no_resize so bf s scene bufLen width height stride false fbIn
      hfb hsw hsh
    have hcore := render_core_unchanged so bf s scene bufLen width height stride false
      fbIn s.bgWidth s.bgHeight s.bgSurf hchg
    have hcond : ¬ (stride ≠ s.bgWidth ∨ height ≠ s.bgHeight) := by simp [hsw, hsh]
    rw [if_neg hcond]
    refine ⟨fun hleb hlohi => ?_, fun hleb hlohi => ?_, fun hleb => ?_⟩
    · rw [hrw, hcore, hshowMin, hshowMax, hshowLo, hshowHi, if_neg (by simp),
        if_pos hleb, if_pos ⟨hlohi, hhi⟩, ← hsw, ← hsh]
      rfl
    · rw [hrw, hcore, hshowMin, hshowMax, hshowLo, hshowHi, if_neg (by simp),
        if_pos hleb, if_neg (fun hc => hlohi hc.1)]
      rfl
    · rw [hrw, hcore, hshowMin, hshowMax, if_neg (by simp),
        if_neg (by rw [hleb]; exact Bool.false_ne_true), ← hsw, ← hsh]
      rfl

/-- Witness for C1 (amended): a 5x10 surface with stored span `[3, 4]` and a
top-layer path spanning `[1, 6]` merges to `[1, 6]` and copies exactly the
bytes of rows `[0, 8)`, that is bytes `[0, 160)`. -/
theorem render_partial_copy_exact_range_witness :
    BorrowedRenderer.render 0 0 ⟨none, 5, 10, .external 7, .fin 3, .fin 4⟩
      ⟨none, false, [], [.fillPath (some ⟨1, 6, 0, 1⟩) (.solidColor ⟨1, 0, 0, 1⟩)
        ⟨1, 1, 0, 0⟩], none, ⟨0, 10, 0, 5⟩⟩ 200 5 10 5 false (.external 9) =
      (render_layer 0 (Surf.copyRows (.external 9) (.external 7) 0 160)
          [.fillPath (some ⟨1, 6, 0, 1⟩) (.solidColor ⟨1, 0, 0, 1⟩) ⟨1, 1, 0, 0⟩]
          ⟨0, 10, 0, 5⟩).map fun fbOut =>
        (⟨none, 5, 10, .external 7, .fin 1, .fin 6⟩, fbOut, none) := by
  have hcur : calculate_bounds 0 [Entity.fillPath (some ⟨1, 6, 0, 1⟩)
      (.solidColor ⟨1, 0, 0, 1⟩) ⟨1, 1, 0, 0⟩] = (.fin 1, .fin 6) := by
    norm_num [calculate_bounds, boundsStep, Transform.transform_y, FVal.minv,
      FVal.maxv]
  have hmin : mergedSpanMin 0 ⟨none, 5, 10, .external 7, .fin 3, .fin 4⟩
      ⟨none, false, [], [.fillPath (some ⟨1, 6, 0, 1⟩) (.solidColor ⟨1, 0, 0, 1⟩)
        ⟨1, 1, 0, 0⟩], none, ⟨0, 10, 0, 5⟩⟩ = .fin 1 := by
    rw [mergedSpanMin]
    rw [show SceneInput.topLayer ⟨none, false, [], [.fillPath (some ⟨1, 6, 0, 1⟩)
      (.solidColor ⟨1, 0, 0, 1⟩) ⟨1, 1, 0, 0⟩], none, ⟨0, 10, 0, 5⟩⟩ =
      [.fillPath (some ⟨1, 6, 0, 1⟩) (.solidColor ⟨1, 0, 0, 1⟩) ⟨1, 1, 0, 0⟩]
      from rfl, hcur]
    norm_num [FVal.minv, min_def]
  have hmax : mergedSpanMax 0 ⟨none, 5, 10, .external 7, .fin 3, .fin 4⟩
      ⟨none, false, [], [.fillPath (some ⟨1, 6, 0, 1⟩) (.solidColor ⟨1, 0, 0, 1⟩)
        ⟨1, 1, 0, 0⟩], none, ⟨0, 10, 0, 5⟩⟩ = .fin 6 := by
    rw [mergedSpanMax]
    rw [show SceneInput.topLayer ⟨none, false, [], [.fillPath (some ⟨1, 6, 0, 1⟩)
      (.solidColor ⟨1, 0, 0, 1⟩) ⟨1, 1, 0, 0⟩], none, ⟨0, 10, 0, 5⟩⟩ =
      [.fillPath (some ⟨1, 6, 0, 1⟩) (.solidColor ⟨1, 0, 0, 1⟩) ⟨1, 1, 0, 0⟩]
      from rfl, hcur]
    norm_num [FVal.maxv, max_def]
  have hlo : copyLo 0 ⟨none, 5, 10, .external 7, .fin 3, .fin 4⟩
      ⟨none, false, [], [.fillPath (some ⟨1, 6, 0, 1⟩) (.solidColor ⟨1, 0, 0, 1⟩)
        ⟨1, 1, 0, 0⟩], none, ⟨0, 10, 0, 5⟩⟩ 5 = 0 := by
    rw [copyLo, hmin]
    norm_num [FVal.subQ, FVal.toUsize]
  have hhi : copyHi 0 ⟨none, 5, 10, .external 7, .fin 3, .fin 4⟩
      ⟨none, false, [], [.fillPath (some ⟨1, 6, 0, 1⟩) (.solidColor ⟨1, 0, 0, 1⟩)
        ⟨1, 1, 0, 0⟩], none, ⟨0, 10, 0, 5⟩⟩ 5 10 = 160 := by
    rw [copyHi, hmax]
    norm_num [FVal.addQ, FVal.toUsize, USIZE_MAX, Int.toNat_ofNat, min_def]
    omega
  have h := (render_partial_copy_exact_range 0 0
    ⟨none, 5, 10, .external 7, .fin 3, .fin 4⟩
    ⟨none, false, [], [.fillPath (some ⟨1, 6, 0, 1⟩) (.solidColor ⟨1, 0, 0, 1⟩)
      ⟨1, 1, 0, 0⟩], none, ⟨0, 10, 0, 5⟩⟩ 200 5 10 5 (.external 9)
    (by norm_num) (by norm_num) (by norm_num) rfl).1
    (by rw [hmin, hmax]; norm_num [FVal.leb]) (by rw [hlo, hhi]; norm_num)
  rw [hlo, hhi, hcur] at h
  exact h

/-- C1 counterexample: with a valid 1x100 buffer, an unchanged bottom
layer, an empty stored span and a top-layer path spanning rows
`[200, 210]` — entirely below the 100-row surface — the merged span is
non-empty, yet the slice bounds invert (byte 796 over byte 400) and the
call panics instead of copying the claimed byte range. -/
theorem render_copy_claim_false : ¬ claimC1Prop := by
  intro h
  have hcur : calculate_bounds 0 [Entity.fillPath (some ⟨200, 210, 0, 1⟩)
      (.solidColor ⟨1, 0, 0, 1⟩) ⟨1, 1, 0, 0⟩] = (.fin 200, .fin 210) := by
    norm_num [calculate_bounds, boundsStep, Transform.transform_y, FVal.minv,
      FVal.maxv]
  have hfb : pixmapMutFromBytes 400 1 100 = some (1, 100) := by
    rw [pixmapMutFromBytes, if_pos ⟨one_ne_zero, by norm_num, by norm_num⟩]
  have hnone : BorrowedRenderer.render 0 0 ⟨none, 1, 100, .external 7, .posInf,
      .negInf⟩ ⟨none, false, [], [.fillPath (some ⟨200, 210, 0, 1⟩)
        (.solidColor ⟨1, 0, 0, 1⟩) ⟨1, 1, 0, 0⟩], none, ⟨0, 100, 0, 1⟩⟩
      400 1 100 1 false (.external 9) = none := by
    rw [render_no_resize 0 0 ⟨none, 1, 100, .external 7, .posInf, .negInf⟩
      ⟨none, false, [], [.fillPath (some ⟨200, 210, 0, 1⟩)
        (.solidColor ⟨1, 0, 0, 1⟩) ⟨1, 1, 0, 0⟩], none, ⟨0, 100, 0, 1⟩⟩
      400 1 100 1 false (.external 9) hfb rfl rfl,
      render_core_unchanged 0 0 ⟨none, 1, 100, .external 7, .posInf, .negInf⟩
      ⟨none, false, [], [.fillPath (some ⟨200, 210, 0, 1⟩)
        (.solidColor ⟨1, 0, 0, 1⟩) ⟨1, 1, 0, 0⟩], none, ⟨0, 100, 0, 1⟩⟩
      400 1 100 1 false (.external 9) 1 100 (.external 7) rfl]
    rw [show SceneInput.topLayer ⟨none, false, [], [.fillPath (some ⟨200, 210, 0, 1⟩)
      (.solidColor ⟨1, 0, 0, 1⟩) ⟨1, 1, 0, 0⟩], none, ⟨0, 100, 0, 1⟩⟩ =
      [.fillPath (some ⟨200, 210, 0, 1⟩) (.solidColor ⟨1, 0, 0, 1⟩) ⟨1, 1, 0, 0⟩]
      from rfl, hcur]
    rw [if_neg (by simp)]
    rw [if_pos (by norm_num [FVal.minv, FVal.maxv, FVal.leb])]
    rw [if_neg (by norm_num [FVal.minv, FVal.maxv, FVal.subQ, FVal.addQ,
      FVal.toUsize, USIZE_MAX, Int.toNat_ofNat, min_def]; omega)]
    rfl
  have hc := h 0 0 ⟨none, 1, 100, .external 7, .posInf, .negInf⟩
    ⟨none, false, [], [.fillPath (some ⟨200, 210, 0, 1⟩) (.solidColor ⟨1, 0, 0, 1⟩)
      ⟨1, 1, 0, 0⟩], none, ⟨0, 100, 0, 1⟩⟩ 400 1 100 1 (.external 9)
    one_ne_zero (by norm_num) (by norm_num) rfl
  obtain ⟨out, hout, -⟩ := hc.1 (by
    rw [show SceneInput.topLayer ⟨none, false, [], [.fillPath (some ⟨200, 210, 0, 1⟩)
      (.solidColor ⟨1, 0, 0, 1⟩) ⟨1, 1, 0, 0⟩], none, ⟨0, 100, 0, 1⟩⟩ =
      [.fillPath (some ⟨200, 210, 0, 1⟩) (.solidColor ⟨1, 0, 0, 1⟩) ⟨1, 1, 0, 0⟩]
      from rfl, hcur]
    norm_num [FVal.minv, FVal.maxv, FVal.leb])
  rw [hnone] at hout
  cases hout

/-- C5 (amended): the persistent dirty-span state is initialized at
construction to the inverted empty range, and after every completed render
call it holds exactly the current frame's top-layer span; it is never
reset — on a resize or a forced redraw the previous span still participates
in the merge, and the call simply overwrites the state with the current
frame's span as on any other call. -/
theorem span_state_follows_current_frame (so bf : ℚ) (s : BorrowedRenderer)
    (scene : SceneInput) (bufLen width height stride : ℕ) (force : Bool)
    (fbIn : Surf) :
    (BorrowedRenderer.new.min_y = FVal.posInf ∧
      BorrowedRenderer.new.max_y = FVal.negInf) ∧
    (∀ s' fb hint,
      BorrowedRenderer.render so bf s scene bufLen width height stride force fbIn =
        some (s', fb, hint) →
      s'.min_y = (calculate_bounds so scene.topLayer).1 ∧
      s'.max_y = (calculate_bounds so scene.topLayer).2) := by
  refine ⟨⟨rfl, rfl⟩, fun s' fb hint heq => ?_⟩
  have hcore := render_eq_some_inv so bf s scene bufLen width height stride force fbIn
    (s', fb, hint) heq
  rcases hchg : scene.bottomLayerChanged with - | -
  · rw [render_core_unchanged so bf s scene bufLen width height stride force fbIn _ _ _
      hchg] at hcore
    obtain ⟨fbMid, -, hrest⟩ := Option.bind_eq_some.mp hcore
    obtain ⟨fbOut, -, hmk⟩ := Option.map_eq_some'.mp hrest
    have hs' : _ = s' := congrArg (fun p => p.1) hmk
    rw [← hs']
    exact ⟨rfl, rfl⟩
  · rw [render_core_changed so bf s scene bufLen width height stride force fbIn _ _ _
      hchg] at hcore
    obtain ⟨ops, -, h2⟩ := Option.bind_eq_some.mp hcore
    obtain ⟨bgSurf1, -, h3⟩ := Option.bind_eq_some.mp h2
    obtain ⟨fbOut, -, hmk⟩ := Option.map_eq_some'.mp h3
    have hs' : _ = s' := congrArg (fun p => p.1) hmk
    rw [← hs']
    exact ⟨rfl, rfl⟩

/-- Witness for C5 (amended): the freshly constructed renderer carries the
inverted empty span, and a completed call with an empty top layer stores
the empty current span. -/
theorem span_state_follows_current_frame_witness :
    BorrowedRenderer.new.min_y = FVal.posInf ∧
    BorrowedRenderer.new.max_y = FVal.negInf ∧
    ∃ out : BorrowedRenderer × Surf × Option (ℚ × ℚ),
      BorrowedRenderer.render 0 0 BorrowedRenderer.new
        ⟨none, false, [], [], none, ⟨0, 1, 0, 1⟩⟩ 4 1 1 1 false (.external 0) =
        some out ∧ out.1.min_y = FVal.posInf ∧ out.1.max_y = FVal.negInf := by
  have hfb : pixmapMutFromBytes 4 1 1 = some (1, 1) := by
    rw [pixmapMutFromBytes, if_pos ⟨one_ne_zero, one_ne_zero, by norm_num⟩]
  have hrender : BorrowedRenderer.render 0 0 BorrowedRenderer.new
      ⟨none, false, [], [], none, ⟨0, 1, 0, 1⟩⟩ 4 1 1 1 false (.external 0) =
      some (⟨none, BorrowedRenderer.new.bgWidth, BorrowedRenderer.new.bgHeight,
        BorrowedRenderer.new.bgSurf, .posInf, .negInf⟩, .external 0, none) := by
    rw [render_no_resize 0 0 BorrowedRenderer.new
      ⟨none, false, [], [], none, ⟨0, 1, 0, 1⟩⟩ 4 1 1 1 false (.external 0) hfb rfl rfl,
      render_core_unchanged 0 0 BorrowedRenderer.new
      ⟨none, false, [], [], none, ⟨0, 1, 0, 1⟩⟩ 4 1 1 1 false (.external 0)
      BorrowedRenderer.new.bgWidth BorrowedRenderer.new.bgHeight
      BorrowedRenderer.new.bgSurf rfl]
    rfl
  have h := (span_state_follows_current_frame 0 0 BorrowedRenderer.new
    ⟨none, false, [], [], none, ⟨0, 1, 0, 1⟩⟩ 4 1 1 1 false (.external 0)).2 _ _ _
    hrender
  exact ⟨rfl, rfl, _, hrender, h.1, h.2⟩

/-- C5 counterexample: on a resize (cached background stride 2, new stride
1) with no forced redraw and an unchanged bottom layer, the stored span
`[10, 20]` still participates in the compositing merge — the call copies
the byte range `[36, 88)` — while the identical call started from a
cleared span copies nothing; hence the span state is not reset on resize
(nor on forced redraw). -/
theorem span_reset_claim_false : ¬ claimC5Prop := by
  intro h
  have hfb : pixmapMutFromBytes 400 1 100 = some (1, 100) := by
    rw [pixmapMutFromBytes, if_pos ⟨one_ne_zero, by norm_num, by norm_num⟩]
  have h1 : BorrowedRenderer.render 0 0 ⟨none, 2, 100, .external 7, .fin 10, .fin 20⟩
      ⟨none, false, [], [], none, ⟨0, 100, 0, 1⟩⟩ 400 1 100 1 false (.external 9) =
      some (⟨none, 1, 100, .blank 1 100, .posInf, .negInf⟩,
        .copyRows (.external 9) (.blank 1 100) 36 88, none) := by
    rw [render_resize 0 0 ⟨none, 2, 100, .external 7, .fin 10, .fin 20⟩
      ⟨none, false, [], [], none, ⟨0, 100, 0, 1⟩⟩ 400 1 100 1 false (.external 9)
      hfb one_ne_zero (by norm_num) (Or.inl (by norm_num)),
      render_core_unchanged 0 0 ⟨none, 2, 100, .external 7, .fin 10, .fin 20⟩
      ⟨none, false, [], [], none, ⟨0, 100, 0, 1⟩⟩ 400 1 100 1 false (.external 9)
      1 100 (.blank 1 100) rfl]
    rw [if_neg (by simp)]
    rw [if_pos (by norm_num [FVal.minv, FVal.maxv, FVal.leb, calculate_bounds])]
    rw [if_pos (by constructor <;>
      (norm_num [FVal.minv, FVal.maxv, FVal.subQ, FVal.addQ, FVal.toUsize,
        USIZE_MAX, Int.toNat_ofNat, min_def, calculate_bounds] <;> omega))]
    norm_num [FVal.minv, FVal.maxv, FVal.subQ, FVal.addQ, FVal.toUsize,
      USIZE_MAX, Int.toNat_ofNat, min_def, calculate_bounds, render_layer]
    omega
  have h2 : BorrowedRenderer.render 0 0
      (resetSpan ⟨none, 2, 100, .external 7, .fin 10, .fin 20⟩)
      ⟨none, false, [], [], none, ⟨0, 100, 0, 1⟩⟩ 400 1 100 1 false (.external 9) =
      some (⟨none, 1, 100, .blank 1 100, .posInf, .negInf⟩, .external 9, none) := by
    rw [render_resize 0 0 (resetSpan ⟨none, 2, 100, .external 7, .fin 10, .fin 20⟩)
      ⟨none, false, [], [], none, ⟨0, 100, 0, 1⟩⟩ 400 1 100 1 false (.external 9)
      hfb one_ne_zero (by norm_num) (Or.inl (by norm_num [resetSpan])),
      render_core_unchanged 0 0
      (resetSpan ⟨none, 2, 100, .external 7, .fin 10, .fin 20⟩)
      ⟨none, false, [], [], none, ⟨0, 100, 0, 1⟩⟩ 400 1 100 1 false (.external 9)
      1 100 (.blank 1 100) rfl]
    rfl
  have hc := h 0 0 ⟨none, 2, 100, .external 7, .fin 10, .fin 20⟩
    ⟨none, false, [], [], none, ⟨0, 100, 0, 1⟩⟩ 400 1 100 1 false (.external 9)
    (Or.inl (Or.inl (by norm_num)))
  rw [h1, h2] at hc
  simp at hc
